import Mathlib

/-!
Verification of the rustafarian-client transport core.

This file shallowly embeds the data model and the packet handlers of
`src/client.rs` (the `Client` trait with its default methods, instantiated
with the chat adapter of `src/chat_client.rs`) and the BFS route
computation of `src/routing/mod.rs`, and proves or refutes the
specification's claims about them.

Conventions of the embedding:
* Rust `HashMap`s become association lists (`alookup` / `ainsert` /
  `aremove`); `HashMap::insert` replaces an existing binding, so does
  `ainsert`.
* Machine integers (`u8`, `u64`, `usize`, `u128`) become `Nat`; the
  handlers never exercise wrap-around, and the `usize::try_from` error
  branches of the source are unreachable on 64-bit targets, so they are
  not modelled.
* A Rust panic (index out of bounds, `unwrap` on `None`,
  `panic!`) is modelled by returning `none`; a normal return is
  `some (state, outputs)`.
* Channel sends become elements of an output list (`ClientOut`): a packet
  handed to a neighbour channel, or a message to the simulation
  controller.
* Calls to `rand::random()` and to the system clock become explicit
  oracle parameters (`floodId`, `sessIds`, `now`), one per draw site.
* Code of the external crates `rustafarian_shared` and `wg_2024` that the
  client calls (Topology, Assembler, Disassembler, routing-header
  helpers) is absent from the repository; those definitions are modelled
  from the specification and marked as such in their doc comments.
-/

namespace RustafarianClient

/-- Node identifier (`u8` in the source). -/
abbrev NodeId := Nat

/-! ## Association-list maps (model of `std::collections::HashMap`) -/

/-- `HashMap::get`. -/
def alookup {α β : Type} [DecidableEq α] (k : α) : List (α × β) → Option β
  | [] => none
  | (k', v') :: rest => if k' = k then some v' else alookup k rest

/-- `HashMap::insert`: replaces an existing binding for the key. -/
def ainsert {α β : Type} [DecidableEq α] (k : α) (v : β) : List (α × β) → List (α × β)
  | [] => [(k, v)]
  | (k', v') :: rest => if k' = k then (k, v) :: rest else (k', v') :: ainsert k v rest

/-- `HashMap::remove`. -/
def aremove {α β : Type} [DecidableEq α] (k : α) : List (α × β) → List (α × β)
  | [] => []
  | (k', v') :: rest => if k' = k then aremove k rest else (k', v') :: aremove k rest

/-- `HashMap::entry(k).or_default()` followed by an update `f` of the value
(`d` is the default value). -/
def aupdate {α β : Type} [DecidableEq α] (k : α) (f : β → β) (d : β)
    (m : List (α × β)) : List (α × β) :=
  match alookup k m with
  | some v => ainsert k (f v) m
  | none => ainsert k (f d) m

/-- `HashMap::entry(k).or_insert(v)`: insert only when the key is absent. -/
def aorInsert {α β : Type} [DecidableEq α] (k : α) (v : β)
    (m : List (α × β)) : List (α × β) :=
  match alookup k m with
  | some _ => m
  | none => ainsert k v m

theorem alookup_ainsert_self {α β : Type} [DecidableEq α] (k : α) (v : β)
    (m : List (α × β)) : alookup k (ainsert k v m) = some v := by
  induction m with
  | nil => simp [ainsert, alookup]
  | cons hd tl ih =>
    obtain ⟨k', v'⟩ := hd
    by_cases h : k' = k <;> simp [ainsert, alookup, h, ih]

theorem alookup_ainsert_ne {α β : Type} [DecidableEq α] {k k' : α} (v : β)
    (m : List (α × β)) (h : k ≠ k') :
    alookup k' (ainsert k v m) = alookup k' m := by
  induction m with
  | nil => simp [ainsert, alookup, h]
  | cons hd tl ih =>
    obtain ⟨ka, va⟩ := hd
    by_cases hk : ka = k
    · subst hk
      simp [ainsert, alookup, h]
    · simp [ainsert, alookup, hk, ih]

theorem alookup_aremove_self {α β : Type} [DecidableEq α] (k : α)
    (m : List (α × β)) : alookup k (aremove k m) = none := by
  induction m with
  | nil => simp [aremove, alookup]
  | cons hd tl ih =>
    obtain ⟨k', v'⟩ := hd
    by_cases h : k' = k <;> simp [aremove, alookup, h, ih]

theorem alookup_aremove_ne {α β : Type} [DecidableEq α] {k k' : α}
    (m : List (α × β)) (h : k ≠ k') :
    alookup k' (aremove k m) = alookup k' m := by
  induction m with
  | nil => simp [aremove, alookup]
  | cons hd tl ih =>
    obtain ⟨ka, va⟩ := hd
    by_cases hk : ka = k
    · subst hk
      simp [aremove, alookup, h, ih]
    · simp [aremove, alookup, hk, ih]

/-! ## Packet data model (`wg_2024::packet`, `wg_2024::network`) -/

/-- `wg_2024::packet::NodeType`. -/
inductive NodeType where
  | Drone
  | Client
  | Server
deriving DecidableEq, Repr

/-- `wg_2024::packet::Fragment`: `(fragment_index, total_n_fragments, length,
data[128])`. The 128-byte array is a byte list. -/
structure Fragment where
  fragment_index : Nat
  total_n_fragments : Nat
  length : Nat
  data : List Nat
deriving DecidableEq, Repr

/-- `wg_2024::packet::Ack`. -/
structure Ack where
  fragment_index : Nat
deriving DecidableEq, Repr

/-- `wg_2024::packet::NackType`. -/
inductive NackType where
  | Dropped
  | ErrorInRouting (id : NodeId)
  | DestinationIsDrone
  | UnexpectedRecipient
deriving DecidableEq, Repr

/-- `wg_2024::packet::Nack`. -/
structure Nack where
  fragment_index : Nat
  nack_type : NackType
deriving DecidableEq, Repr

/-- `wg_2024::packet::FloodRequest`. -/
structure FloodRequest where
  flood_id : Nat
  initiator_id : NodeId
  path_trace : List (NodeId × NodeType)
deriving DecidableEq, Repr

/-- `wg_2024::packet::FloodResponse`. -/
structure FloodResponse where
  flood_id : Nat
  path_trace : List (NodeId × NodeType)
deriving DecidableEq, Repr

/-- `wg_2024::network::SourceRoutingHeader`. -/
structure SourceRoutingHeader where
  hop_index : Nat
  hops : List NodeId
deriving DecidableEq, Repr

/-- Modelled from the spec: `wg_2024`'s `SourceRoutingHeader::get_reversed`
(the crate is not in the repository). Per §3, the routing header is the
source route; the reversed header carries the hops in reverse order, so its
first hop is the original final destination. -/
def SourceRoutingHeader.get_reversed (h : SourceRoutingHeader) : SourceRoutingHeader :=
  { hop_index := 0, hops := h.hops.reverse }

/-- Modelled from the spec: `wg_2024`'s
`SourceRoutingHeader::increase_hop_index`. -/
def SourceRoutingHeader.increase_hop_index (h : SourceRoutingHeader) : SourceRoutingHeader :=
  { h with hop_index := h.hop_index + 1 }

/-- `wg_2024::packet::PacketType`. -/
inductive PacketType where
  | MsgFragment (f : Fragment)
  | Ack (a : Ack)
  | Nack (n : Nack)
  | FloodRequest (r : FloodRequest)
  | FloodResponse (r : FloodResponse)
deriving DecidableEq, Repr

/-- `wg_2024::packet::Packet`. -/
structure Packet where
  pack_type : PacketType
  routing_header : SourceRoutingHeader
  session_id : Nat
deriving DecidableEq, Repr

/-! ## Shared-crate topology (`rustafarian_shared::topology::Topology`)

The shared crate is not part of this repository; the client calls these
operations, so they are modelled from the specification (§4.1). -/

/-- Modelled from the spec: the shared crate's `Topology` state — the node
set, the symmetric neighbour map, the per-node kind tags (the client stores
them as strings: "drone", "client", "server", and the specialised server
kinds), and the per-node `(forwarded, dropped)` counters (§3, §4.1). -/
structure Topology where
  nodes : List NodeId
  edges : List (NodeId × List NodeId)
  node_types : List (NodeId × String)
  node_history : List (NodeId × (Nat × Nat))
deriving DecidableEq, Repr

/-- Modelled from the spec: `Topology::add_node` — idempotent (§4.1). -/
def Topology.add_node (t : Topology) (id : NodeId) : Topology :=
  if id ∈ t.nodes then t
  else { t with nodes := t.nodes ++ [id], edges := aorInsert id [] t.edges }

/-- Insert `b` into `a`'s neighbour list when absent (one direction of the
symmetric, idempotent `add_edge` of §4.1). -/
def Topology.addHalfEdge (t : Topology) (a b : NodeId) : Topology :=
  let cur := (alookup a t.edges).getD []
  if b ∈ cur then t else { t with edges := ainsert a (cur ++ [b]) t.edges }

/-- Modelled from the spec: `Topology::add_edge` — symmetric and idempotent
(§4.1). -/
def Topology.add_edge (t : Topology) (a b : NodeId) : Topology :=
  (t.addHalfEdge a b).addHalfEdge b a

/-- Modelled from the spec: `Topology::set_node_type` (§4.1 `set_kind`). -/
def Topology.set_node_type (t : Topology) (id : NodeId) (s : String) : Topology :=
  { t with node_types := ainsert id s t.node_types }

/-- Modelled from the spec: `Topology::get_node_type` (§4.1 `get_kind`). -/
def Topology.get_node_type (t : Topology) (id : NodeId) : Option String :=
  alookup id t.node_types

/-- Modelled from the spec: `Topology::remove_node` — idempotent; removing a
node removes it from all neighbour sets (§3, §4.1). -/
def Topology.remove_node (t : Topology) (id : NodeId) : Topology :=
  { t with
    nodes := t.nodes.filter (fun n => n ≠ id)
    edges := (aremove id t.edges).map (fun e => (e.1, e.2.filter (fun n => n ≠ id))) }

/-- Modelled from the spec: `Topology::update_node_history` (§4.1
`record_hop`) — increments the forwarded counter (and the dropped counter
when `dropped` is true) for every drone in the route. -/
def Topology.update_node_history (t : Topology) (route : List NodeId)
    (dropped : Bool) : Topology :=
  { t with
    node_history := route.foldl
      (fun h n =>
        if t.get_node_type n = some "drone" then
          aupdate n (fun c => (c.1 + 1, if dropped then c.2 + 1 else c.2)) (0, 0) h
        else h)
      t.node_history }

/-- Insert into a `le`-sorted list (kernel-reducible sorting helper). -/
def insertSorted {α : Type} (le : α → α → Bool) (x : α) : List α → List α
  | [] => [x]
  | y :: ys => if le x y then x :: y :: ys else y :: insertSorted le x ys

/-- Insertion sort (kernel-reducible, stable). -/
def sortByLe {α : Type} (le : α → α → Bool) (l : List α) : List α :=
  l.foldr (insertSorted le) []

/-- One BFS step queue: paths awaiting expansion, visited nodes. Used by the
spec-modelled `shortest_route` (§4.1): neighbours are explored in ascending
`NodeId` order (ties broken by lower id) and only drones may be expanded as
intermediates; endpoints may be of any kind (§9). -/
def routeBFS (nbrs : NodeId → List NodeId) (isDrone : NodeId → Bool)
    (src dst : NodeId) : Nat → List (List NodeId) → List NodeId → List NodeId
  | 0, _, _ => []
  | _ + 1, [], _ => []
  | fuel + 1, path :: queue, visited =>
    match path.getLast? with
    | none => routeBFS nbrs isDrone src dst fuel queue visited
    | some u =>
      if u = dst then path
      else if u = src ∨ isDrone u then
        let vs := (sortByLe (fun a b => a ≤ b) (nbrs u)).filter
          (fun v => ¬ visited.contains v)
        routeBFS nbrs isDrone src dst fuel
          (queue ++ vs.map (fun v => path ++ [v])) (visited ++ vs)
      else routeBFS nbrs isDrone src dst fuel queue visited

/-- Modelled from the spec: `Topology::get_routing_header` of the shared
crate — computes `shortest_route(src, dst)` (§4.1: empty when disconnected,
otherwise hops from `src` to `dst`; intermediates must be drones, ties by
lower id) and wraps it in a header whose `hop_index` is 1, so the node at
`hop_index` is the first forwarder (§3, §4.3 step 5). -/
def Topology.get_routing_header (t : Topology) (src dst : NodeId) : SourceRoutingHeader :=
  { hop_index := 1
    hops := routeBFS (fun n => (alookup n t.edges).getD [])
      (fun n => (alookup n t.node_types).getD "" = "drone")
      src dst (t.nodes.length + 2) [[src]] [src] }

/-! ## Application message types and controller events

The concrete types live in the missing `rustafarian_shared::messages`
crate; they are modelled from the spec (§6) and from their usage in
`src/chat_client.rs` (the in-repository `src/message.rs` holds an earlier
revision of the same enums). Serialization is external to the core (§6), so
payloads stay byte lists and the deserializer is an oracle parameter. -/

/-- `ServerType` (§3: a server may be tagged Chat, Text or Media). -/
inductive ServerType where
  | Chat
  | Text
  | Media
deriving DecidableEq, Repr

/-- `ServerTypeResponse` as destructured by `ChatClient::handle_response`. -/
inductive ServerTypeResponse where
  | ServerType (t : ServerType)
deriving DecidableEq, Repr

/-- `ChatResponse` as consumed by `ChatClient::handle_chat_response`. -/
inductive ChatResponse where
  | ClientList (l : List NodeId)
  | MessageFrom (client_id : NodeId) (message : List Nat)
  | MessageSent
  | ClientRegistered
deriving DecidableEq, Repr

/-- `ChatResponseWrapper`: the chat client's `ResponseType`. -/
inductive ChatResponseWrapper where
  | Chat (r : ChatResponse)
  | ServerType (r : ServerTypeResponse)
deriving DecidableEq, Repr

/-- The simulation-controller messages and events the embedded handlers
emit (`SimControllerMessage` / `SimControllerEvent`, §6). -/
inductive CtrlMsg where
  | FloodResponseMsg (flood_id : Nat)
  | FloodRequestSentEvt
  | MessageSentEvt (session_id : Nat)
  | ClientListResponse (server : NodeId) (clients : List NodeId)
  | MessageReceived (server : NodeId) (client_id : NodeId) (s : List Nat)
  | ServerTypeResponseMsg (server : NodeId) (t : ServerType)
deriving DecidableEq, Repr

/-- An observable effect of a handler: a packet pushed into a neighbour's
channel, or a message/event pushed to the simulation controller. -/
inductive ClientOut where
  | toNeighbor (n : NodeId) (p : Packet)
  | toController (m : CtrlMsg)
deriving DecidableEq, Repr

/-! ## Client state

The fields a `Client` trait implementor exposes through its accessors
(`src/client.rs` lines 20–59), instantiated with the chat adapter's state
(`src/chat_client.rs` lines 21–44). Channel handles are elided: `senders`
keeps only the neighbour ids, and sends are recorded in the output list. -/

/-- The mutable state of a chat client. -/
structure ClientState where
  client_id : NodeId
  senders : List NodeId
  topology : Topology
  sent_packets : List (Nat × List Packet)
  acked_packets : List (Nat × List Bool)
  assembler : List (Nat × List Fragment)
  packets_to_send : List (NodeId × Packet)
  sent_flood_ids : List Nat
  last_flood_timestamp : Nat
  available_clients : List (NodeId × List NodeId)
  registered_servers : List NodeId
deriving DecidableEq, Repr

/-- Modelled from the spec: `rustafarian_shared::TIMEOUT_BETWEEN_FLOODS_MS`
(MIN_FLOOD_INTERVAL, §6: configuration-defined, order of hundreds of
milliseconds; the source comment in `send_flood_request` says 500 ms). -/
def TIMEOUT_BETWEEN_FLOODS_MS : Nat := 500

/-! ## Fragmenter and reassembler

`rustafarian_shared::assembler` is absent from the repository. -/

/-- `FRAGMENT_DSIZE` (`src/client.rs` line 16). -/
def FRAGMENT_DSIZE : Nat := 128

/-- Chunks of at most 128 bytes, in order. -/
def chunkBytes : Nat → List Nat → List (List Nat)
  | 0, _ => []
  | _, [] => []
  | fuel + 1, bytes => bytes.take FRAGMENT_DSIZE ::
      chunkBytes fuel (bytes.drop FRAGMENT_DSIZE)

/-- Modelled from the spec: `Disassembler::disassemble_message` (§4.2
Fragmenter) — ⌈len/128⌉ fragments, one fragment of length 0 for an empty
payload; each fragment's `length` records its byte count and its `data` is
padded to 128 bytes. -/
def disassemble_message (bytes : List Nat) (_session_id : Nat) : List Fragment :=
  let chunks := if bytes.isEmpty then [[]] else chunkBytes (bytes.length + 1) bytes
  let total := chunks.length
  (List.range total).zipWith
    (fun i c =>
      { fragment_index := i
        total_n_fragments := total
        length := c.length
        data := c ++ List.replicate (FRAGMENT_DSIZE - c.length) 0 })
    chunks

/-- Modelled from the spec: `Assembler::add_fragment` (§4.2 Reassembler,
following the earlier in-repository revision `src/client/mod.rs` lines
80–107) — append the fragment to the session's buffer; once the buffer
holds `total_n_fragments` fragments, sort by `fragment_index`, concatenate
the first `length` bytes of each fragment, release the buffer and return
the payload. -/
def assembler_add_fragment (fragment : Fragment) (session_id : Nat)
    (buf : List (Nat × List Fragment)) :
    List (Nat × List Fragment) × Option (List Nat) :=
  let fragments := (alookup session_id buf).getD [] ++ [fragment]
  match fragments.head? with
  | some f0 =>
    if fragments.length = f0.total_n_fragments then
      let sorted := sortByLe (fun a b => a.fragment_index ≤ b.fragment_index) fragments
      (aremove session_id buf, some (sorted.flatMap (fun f => f.data.take f.length)))
    else (ainsert session_id fragments buf, none)
  | none => (ainsert session_id fragments buf, none)

/-! ## Transport sends (`src/client.rs` lines 467–624) -/

/-- `Client::send_packet` (`src/client.rs` lines 467–529). An empty planned
route parks the packet in `packets_to_send` keyed by the destination.
Otherwise the route's drones are recorded in the topology history, the
packet is appended to the per-session sent log, a fragment initialises the
session's ACK bitmap to `false × total_n_fragments` when absent, and the
packet goes to the neighbour at `hops[hop_index]`; a missing index or an
unregistered neighbour panics (`none`). -/
def send_packet (message : Packet) (destination_id : NodeId) (st : ClientState) :
    Option (ClientState × List ClientOut) :=
  let planned_route := message.routing_header.hops
  if planned_route.isEmpty then
    some ({ st with packets_to_send := ainsert destination_id message st.packets_to_send }, [])
  else
    let st := { st with topology := st.topology.update_node_history planned_route false }
    let st := { st with
      sent_packets := aupdate message.session_id (fun l => l ++ [message]) [] st.sent_packets }
    let st :=
      match message.pack_type with
      | PacketType.MsgFragment fragment =>
        let bitmap := List.replicate fragment.total_n_fragments false
        { st with acked_packets := aorInsert message.session_id bitmap st.acked_packets }
      | _ => st
    match planned_route.get? message.routing_header.hop_index with
    | none => none
    | some drone_id =>
      if drone_id ∈ st.senders then some (st, [ClientOut.toNeighbor drone_id message])
      else none

/-- `Client::send_ack` (`src/client.rs` lines 565–583). -/
def send_ack (fragment_index : Nat) (destination_id : NodeId) (session_id : Nat)
    (st : ClientState) : Option (ClientState × List ClientOut) :=
  let packet : Packet :=
    { pack_type := PacketType.Ack { fragment_index := fragment_index }
      session_id := session_id
      routing_header := st.topology.get_routing_header st.client_id destination_id }
  send_packet packet destination_id st

/-- The flood-request packet `Client::send_flood_request` emits to each
neighbour (`src/client.rs` lines 603–615). -/
def floodRequestPacket (client_id floodId sess : Nat) : Packet :=
  { pack_type := PacketType.FloodRequest
      { flood_id := floodId
        initiator_id := client_id
        path_trace := [(client_id, NodeType.Client)] }
    session_id := sess
    routing_header := { hop_index := 1, hops := [] } }

/-- `Client::send_flood_request` (`src/client.rs` lines 585–624). `now` is
the millisecond clock reading, `floodId` the random flood id, `sessIds i`
the random session id drawn for the `i`-th neighbour. Within
`TIMEOUT_BETWEEN_FLOODS_MS` of the previous self-initiated flood the call
returns silently; otherwise the timestamp is set to `now`, the flood id is
recorded, one request goes to every neighbour and the controller is
notified. -/
def send_flood_request (now floodId : Nat) (sessIds : Nat → Nat)
    (st : ClientState) : ClientState × List ClientOut :=
  if st.last_flood_timestamp + TIMEOUT_BETWEEN_FLOODS_MS > now then (st, [])
  else
    let st := { st with
      last_flood_timestamp := now
      sent_flood_ids := st.sent_flood_ids ++ [floodId] }
    let outs := st.senders.enum.map
      (fun p => ClientOut.toNeighbor p.2 (floodRequestPacket st.client_id floodId (sessIds p.1)))
    (st, outs ++ [ClientOut.toController CtrlMsg.FloodRequestSentEvt])

/-- The fragment loop of `Client::send_message` (`src/client.rs` lines
546–555): each fragment is wrapped in a packet whose routing header is
computed from the current topology and handed to `send_packet`. -/
def sendFragmentsLoop (destination_id session_id : Nat) :
    List Fragment → ClientState → List ClientOut → Option (ClientState × List ClientOut)
  | [], st, outs => some (st, outs)
  | f :: rest, st, outs =>
    let packet : Packet :=
      { pack_type := PacketType.MsgFragment f
        session_id := session_id
        routing_header := st.topology.get_routing_header st.client_id destination_id }
    match send_packet packet destination_id st with
    | none => none
    | some (st', o) => sendFragmentsLoop destination_id session_id rest st' (outs ++ o)

/-- `Client::send_message` (`src/client.rs` lines 531–563); the random
session id is the oracle parameter `session_id`. -/
def send_message (destination_id : NodeId) (message : List Nat) (session_id : Nat)
    (st : ClientState) : Option (ClientState × List ClientOut) :=
  let fragments := disassemble_message message session_id
  match sendFragmentsLoop destination_id session_id fragments st [] with
  | none => none
  | some (st, outs) =>
    some (st, outs ++ [ClientOut.toController (CtrlMsg.MessageSentEvt session_id)])

/-- Modelled from the spec: the serde-serialized `ServerType` request body
(§6: payload serialization is external to the core, the transport sees an
opaque byte string). -/
def serverTypeRequestBytes : List Nat := []

/-- `ChatClient::send_server_type_request` (`src/chat_client.rs` lines
376–386): serializes a `ServerType` request and sends it as a message. -/
def send_server_type_request (server_id : NodeId) (session_id : Nat)
    (st : ClientState) : Option (ClientState × List ClientOut) :=
  send_message server_id serverTypeRequestBytes session_id st

/-! ## Adapter response handling (`src/chat_client.rs` lines 132–242) -/

/-- `ChatClient::handle_chat_response` (`src/chat_client.rs` lines
132–182). Only adapter state and controller messages are touched; no
packet is sent. `str::from_utf8` is external and the core treats payloads
as opaque bytes, so `MessageFrom` forwards the byte list. -/
def handle_chat_response (response : ChatResponse) (server_id : NodeId)
    (st : ClientState) : ClientState × List ClientOut :=
  match response with
  | ChatResponse.ClientList client_list =>
    ({ st with available_clients := ainsert server_id client_list st.available_clients },
      [ClientOut.toController (CtrlMsg.ClientListResponse server_id client_list)])
  | ChatResponse.MessageFrom cid message =>
    (st, [ClientOut.toController (CtrlMsg.MessageReceived server_id cid message)])
  | ChatResponse.MessageSent => (st, [])
  | ChatResponse.ClientRegistered =>
    ({ st with registered_servers := st.registered_servers ++ [server_id] }, [])

/-- `ChatClient::handle_response` (`src/chat_client.rs` lines 216–242). -/
def handle_response (response : ChatResponseWrapper) (server_id : NodeId)
    (st : ClientState) : ClientState × List ClientOut :=
  match response with
  | ChatResponseWrapper.Chat r => handle_chat_response r server_id st
  | ChatResponseWrapper.ServerType (ServerTypeResponse.ServerType t) =>
    let name := match t with
      | ServerType.Chat => "Chat"
      | ServerType.Text => "Text"
      | ServerType.Media => "Media"
    let st := { st with topology := st.topology.set_node_type server_id name }
    let st :=
      if t = ServerType.Chat then
        { st with available_clients := ainsert server_id [] st.available_clients }
      else st
    (st, [ClientOut.toController (CtrlMsg.ServerTypeResponseMsg server_id t)])

/-- `Client::on_text_response_arrived` (`src/client.rs` lines 78–92):
deserialize the reassembled payload (`fromString` is the external serde
deserializer, an oracle of the embedding) and hand it to the adapter;
a failure is only logged. -/
def on_text_response_arrived (fromString : List Nat → Option ChatResponseWrapper)
    (source_id : NodeId) (_session_id : Nat) (raw_content : List Nat)
    (st : ClientState) : ClientState × List ClientOut :=
  match fromString raw_content with
  | some content => handle_response content source_id st
  | none => (st, [])

/-! ## Packet handlers (`src/client.rs` lines 94–410) -/

/-- `Client::on_fragment_received` (`src/client.rs` lines 169–190): feed
the fragment to the assembler, hand a completed payload to the adapter,
then ACK the fragment towards `hops[0]`. The initial debug log indexes
`get_reversed().hops[0]`, so an empty hop list panics. -/
def on_fragment_received (fromString : List Nat → Option ChatResponseWrapper)
    (packet : Packet) (fragment : Fragment) (st : ClientState) :
    Option (ClientState × List ClientOut) :=
  match packet.routing_header.hops.get? 0 with
  | none => none
  | some source_id =>
    let fragment_index := fragment.fragment_index
    let (buf, completed) := assembler_add_fragment fragment packet.session_id st.assembler
    let st := { st with assembler := buf }
    let (st, outs1) :=
      match completed with
      | some message =>
        on_text_response_arrived fromString source_id packet.session_id message st
      | none => (st, [])
    match send_ack fragment_index source_id packet.session_id st with
    | none => none
    | some (st, outs2) => some (st, outs1 ++ outs2)

/-- Count of `true` entries: `iter().filter(|x| **x).count()`. -/
def countTrue (l : List Bool) : Nat := (l.filter (fun b => b)).length

/-- `Vec::insert(index, element)`: shifts everything at and after `index`
to the right; panics when `index > len`. -/
def vecInsert (idx : Nat) (b : Bool) (l : List Bool) : List Bool :=
  l.take idx ++ b :: l.drop idx

/-- `Client::on_ack_received` (`src/client.rs` lines 279–327). The handler
first runs `acked_packets.entry(sid).or_default().insert(idx, true)` —
`Vec::insert`, which panics (`none`) when `idx` exceeds the current bitmap
length — then recounts the true bits, returns if the session has no sent
log, and retires the session when the count reaches the sent-log length. -/
def on_ack_received (packet : Packet) (ack : Ack) (st : ClientState) :
    Option (ClientState × List ClientOut) :=
  let idx := ack.fragment_index
  let cur := (alookup packet.session_id st.acked_packets).getD []
  if idx ≤ cur.length then
    let newVec := vecInsert idx true cur
    let st := { st with acked_packets := ainsert packet.session_id newVec st.acked_packets }
    let acked_packet_count := countTrue newVec
    match alookup packet.session_id st.sent_packets with
    | none => some (st, [])
    | some sent =>
      if sent.length ≤ acked_packet_count then
        some ({ st with
          sent_packets := aremove packet.session_id st.sent_packets
          acked_packets := aremove packet.session_id st.acked_packets }, [])
      else some (st, [])
  else none

/-- `Client::on_nack_received` (`src/client.rs` lines 192–277). `Dropped`
charges the first hop of the reversed header in the topology history
(panicking on an empty hop list); any other kind triggers
`send_flood_request` (oracles `now`, `floodId`, `sessIds`);
`ErrorInRouting` additionally removes the offending node. Then the packet
stored at `fragment_index` of the session's sent log is re-sent over a
freshly computed route to its original destination (the first hop of its
reversed stored header); an unknown session or an index at or beyond the
log length is only logged. -/
def on_nack_received (now floodId : Nat) (sessIds : Nat → Nat)
    (packet : Packet) (nack : Nack) (st : ClientState) :
    Option (ClientState × List ClientOut) :=
  let step1 : Option (ClientState × List ClientOut) :=
    match nack.nack_type with
    | NackType.Dropped =>
      match packet.routing_header.get_reversed.hops.get? 0 with
      | none => none
      | some node_id =>
        some ({ st with topology := st.topology.update_node_history [node_id] true }, [])
    | _ => some (send_flood_request now floodId sessIds st)
  match step1 with
  | none => none
  | some (st, outs1) =>
    let st :=
      match nack.nack_type with
      | NackType.ErrorInRouting error_id =>
        { st with topology := st.topology.remove_node error_id }
      | _ => st
    match alookup packet.session_id st.sent_packets with
    | none => some (st, outs1)
    | some sent =>
      if sent.length < nack.fragment_index then some (st, outs1)
      else
        match sent.get? nack.fragment_index with
        | none => some (st, outs1)
        | some lost_packet =>
          match lost_packet.routing_header.get_reversed.hops.get? 0 with
          | none => none
          | some destination_id =>
            let lost_packet := { lost_packet with
              routing_header := st.topology.get_routing_header st.client_id destination_id }
            match send_packet lost_packet destination_id st with
            | none => none
            | some (st, outs2) => some (st, outs1 ++ outs2)

/-- The server-discovery tail of one path-trace loop iteration
(`src/client.rs` lines 130–133): a `Server`-tagged node with no recorded
kind is tagged "server" and queried for its concrete type (the query
consumes the `k`-th random session id). -/
def floodServerCheck (stSess : Nat → Nat) (node : NodeId × NodeType) (k : Nat)
    (st : ClientState) : Option (ClientState × List ClientOut × Nat) :=
  if node.2 = NodeType.Server ∧ st.topology.get_node_type node.1 = none then
    let st := { st with topology := st.topology.set_node_type node.1 "server" }
    match send_server_type_request node.1 (stSess k) st with
    | none => none
    | some (st, o) => some (st, o, k + 1)
  else some (st, [], k)

/-- One iteration of the path-trace loop of
`Client::on_flood_response_received` (`src/client.rs` lines 101–134):
add an unknown node (tagging drones and clients), then — for a non-first
element — skip the rest of the iteration (`continue`) when the edge to the
previous node already exists and otherwise add it in both directions, and
finally run the server-discovery check. -/
def floodTraceNode (stSess : Nat → Nat) (prev : Option NodeId)
    (node : NodeId × NodeType) (k : Nat) (st : ClientState) :
    Option (ClientState × List ClientOut × Nat) :=
  let st :=
    if node.1 ∈ st.topology.nodes then st
    else
      let t := st.topology.add_node node.1
      let t :=
        if node.2 = NodeType.Drone then t.set_node_type node.1 "drone"
        else if node.2 = NodeType.Client then t.set_node_type node.1 "client"
        else t
      { st with topology := t }
  match prev with
  | none => floodServerCheck stSess node k st
  | some p =>
    if p ∈ (alookup node.1 st.topology.edges).getD [] then some (st, [], k)
    else
      let st := { st with topology := (st.topology.add_edge p node.1).add_edge node.1 p }
      floodServerCheck stSess node k st

/-- The path-trace loop of `Client::on_flood_response_received`. -/
def floodTraceLoop (stSess : Nat → Nat) :
    List (NodeId × NodeType) → Option NodeId → Nat → ClientState → List ClientOut →
    Option (ClientState × List ClientOut × Nat)
  | [], _, k, st, outs => some (st, outs, k)
  | node :: rest, prev, k, st, outs =>
    match floodTraceNode stSess prev node k st with
    | none => none
    | some (st, o, k') => floodTraceLoop stSess rest (some node.1) k' st (outs ++ o)

/-- The drain loop of `Client::on_flood_response_received` (`src/client.rs`
lines 150–161): for every parked packet, recompute the routing header from
the current topology and re-attempt the send. -/
def drainLoop : List (NodeId × Packet) → ClientState → List ClientOut →
    Option (ClientState × List ClientOut)
  | [], st, outs => some (st, outs)
  | (dest, pkt) :: rest, st, outs =>
    let np := { pkt with routing_header := st.topology.get_routing_header st.client_id dest }
    match send_packet np dest st with
    | none => none
    | some (st', o) => drainLoop rest st' (outs ++ o)

/-- `Client::on_flood_response_received` (`src/client.rs` lines 94–167):
ingest the path trace into the topology, notify the controller, then clear
`packets_to_send` and re-attempt every parked packet with a recomputed
route. -/
def on_flood_response_received (stSess : Nat → Nat)
    (flood_response : FloodResponse) (st : ClientState) :
    Option (ClientState × List ClientOut) :=
  match floodTraceLoop stSess flood_response.path_trace none 0 st [] with
  | none => none
  | some (st, outs, _) =>
    let outs := outs ++
      [ClientOut.toController (CtrlMsg.FloodResponseMsg flood_response.flood_id)]
    let packets_to_send := st.packets_to_send
    let st := { st with packets_to_send := [] }
    drainLoop packets_to_send st outs

/-! ## `src/routing/mod.rs`: the in-repository Topology and BFS route -/

/-- `routing::Topology` (`src/routing/mod.rs` lines 5–8): a node list and
an adjacency map. No node kinds, no failure statistics. -/
structure RTopology where
  nodes : List NodeId
  edges : List (NodeId × List NodeId)
deriving DecidableEq, Repr

/-- `routing::Topology::new`. -/
def RTopology.new : RTopology := { nodes := [], edges := [] }

/-- `routing::Topology::add_node` (`src/routing/mod.rs` lines 18–21):
pushes the node and (re)binds its adjacency entry to the empty list. -/
def RTopology.add_node (t : RTopology) (node : NodeId) : RTopology :=
  { nodes := t.nodes ++ [node], edges := ainsert node [] t.edges }

/-- `routing::Topology::add_edge` (`src/routing/mod.rs` lines 23–26):
pushes each endpoint into the other's adjacency list; `unwrap` panics
(`none`) when an endpoint has no adjacency entry. -/
def RTopology.add_edge (t : RTopology) (a b : NodeId) : Option RTopology :=
  match alookup a t.edges with
  | none => none
  | some la =>
    let e1 := ainsert a (la ++ [b]) t.edges
    match alookup b e1 with
    | none => none
    | some lb => some { t with edges := ainsert b (lb ++ [a]) e1 }

/-- The neighbour-scan of one BFS iteration (`src/routing/mod.rs` lines
58–64): enqueue every not-yet-visited neighbour, marking it visited and
recording the current node as its parent. -/
def enqueueNew (cur : NodeId) : List NodeId → List NodeId → List NodeId →
    List (NodeId × NodeId) → List NodeId × List NodeId × List (NodeId × NodeId)
  | [], q, v, p => (q, v, p)
  | n :: ns, q, v, p =>
    if n ∈ v then enqueueNew cur ns q v p
    else enqueueNew cur ns (q ++ [n]) (v ++ [n]) (ainsert n cur p)

/-- The route reconstruction of `compute_route` (`src/routing/mod.rs`
lines 49–55): walk the parent pointers from the destination back to the
source, accumulating the route in source-to-destination order. A missing
parent entry panics in the source and a parent cycle loops forever; both
are `none` here (the fuel exceeds every acyclic chain). -/
def buildRouteAux (parent : List (NodeId × NodeId)) (source_id : NodeId) :
    Nat → NodeId → List NodeId → Option (List NodeId)
  | 0, _, _ => none
  | fuel + 1, node, acc =>
    if node = source_id then some (node :: acc)
    else
      match alookup node parent with
      | none => none
      | some par => buildRouteAux parent source_id fuel par (node :: acc)

/-- The main loop of `compute_route` (`src/routing/mod.rs` lines 46–65):
pop the queue head; the destination triggers reconstruction, any other
node has its unvisited neighbours enqueued (a missing adjacency entry is
the source's `unwrap` panic, `none`); an empty queue returns the empty
route. Fuel only pads the `while`: `compute_route` supplies more fuel
than the loop can consume. -/
def bfsLoop (t : RTopology) (source_id destination_id : NodeId) :
    Nat → List NodeId → List NodeId → List (NodeId × NodeId) → Option (List NodeId)
  | 0, _, _, _ => none
  | fuel + 1, queue, visited, parent =>
    match queue with
    | [] => some []
    | current :: rest =>
      if current = destination_id then
        buildRouteAux parent source_id (parent.length + 1) destination_id []
      else
        match alookup current t.edges with
        | none => none
        | some nbrs =>
          let next := enqueueNew current nbrs rest visited parent
          bfsLoop t source_id destination_id fuel next.1 next.2.1 next.2.2

/-- Every node id the BFS can ever touch: the source, the adjacency keys
and every listed neighbour. -/
def rUniv (t : RTopology) (source_id : NodeId) : List NodeId :=
  (source_id :: (t.edges.map Prod.fst ++ t.edges.flatMap Prod.snd)).dedup

/-- `routing::compute_route` (`src/routing/mod.rs` lines 39–67): BFS from
`source_id`; returns the hop sequence to `destination_id`, or the empty
route when the queue drains first. `none` models a source panic. -/
def compute_route (t : RTopology) (source_id destination_id : NodeId) :
    Option (List NodeId) :=
  bfsLoop t source_id destination_id ((rUniv t source_id).length + 2)
    [source_id] [source_id] []

/-! ## Concrete example states

A small network: client 1, neighbour drone 2, server 21 behind the drone.
Used by witnesses and counterexamples throughout. -/

/-- Topology `1 — 2 — 21` with 2 a drone and 21 a server. -/
def topoW : Topology :=
  { nodes := [1, 2, 21]
    edges := [(1, [2]), (2, [1, 21]), (21, [2])]
    node_types := [(2, "drone"), (21, "server")]
    node_history := [] }

/-- Base client state: client 1 with neighbour 2 and topology `topoW`. -/
def stW : ClientState :=
  { client_id := 1
    senders := [2]
    topology := topoW
    sent_packets := []
    acked_packets := []
    assembler := []
    packets_to_send := []
    sent_flood_ids := []
    last_flood_timestamp := 0
    available_clients := []
    registered_servers := [] }

/-- A single full-message fragment. -/
def fragW : Fragment :=
  { fragment_index := 0, total_n_fragments := 1, length := 2
    data := [7, 8] ++ List.replicate 126 0 }

/-- A one-fragment message packet for session 0, routed `[1, 2, 21]`. -/
def pFragW : Packet :=
  { pack_type := PacketType.MsgFragment fragW
    routing_header := { hop_index := 1, hops := [1, 2, 21] }
    session_id := 0 }

/-! ## C7: flood rate limiting -/

/-- C7: within `TIMEOUT_BETWEEN_FLOODS_MS` of the previous self-initiated
flood's timestamp, `send_flood_request` emits nothing and leaves the state
untouched; past the interval it stamps the current time, emits one flood
request to every neighbour plus the controller event, and a further call
less than the interval after the successful one again emits nothing — at
most one self-initiated flood per window. -/
theorem flood_rate_limit (st : ClientState) (now now2 floodId floodId2 : Nat)
    (sessIds sessIds2 : Nat → Nat) :
    (now < st.last_flood_timestamp + TIMEOUT_BETWEEN_FLOODS_MS →
      send_flood_request now floodId sessIds st = (st, [])) ∧
    (st.last_flood_timestamp + TIMEOUT_BETWEEN_FLOODS_MS ≤ now →
      (send_flood_request now floodId sessIds st).1.last_flood_timestamp = now ∧
      (send_flood_request now floodId sessIds st).2 =
        st.senders.enum.map
          (fun p => ClientOut.toNeighbor p.2
            (floodRequestPacket st.client_id floodId (sessIds p.1))) ++
          [ClientOut.toController CtrlMsg.FloodRequestSentEvt] ∧
      (now2 < now + TIMEOUT_BETWEEN_FLOODS_MS →
        send_flood_request now2 floodId2 sessIds2
            (send_flood_request now floodId sessIds st).1 =
          ((send_flood_request now floodId sessIds st).1, []))) := by
  constructor
  · intro h
    simp only [send_flood_request, if_pos h]
  · intro h
    have hcond : ¬ st.last_flood_timestamp + TIMEOUT_BETWEEN_FLOODS_MS > now := by omega
    refine ⟨?_, ?_, ?_⟩
    · simp [send_flood_request, hcond]
    · simp [send_flood_request, hcond]
    · intro h2
      have hcond2 : (send_flood_request now floodId sessIds st).1.last_flood_timestamp +
          TIMEOUT_BETWEEN_FLOODS_MS > now2 := by
        simp [send_flood_request, hcond]
        omega
      simp [send_flood_request] at hcond2 ⊢
      simp [hcond] at hcond2 ⊢
      omega

/-- Witness for C7 at the concrete base state: a call at time 100 (within
500 ms of timestamp 0) is dropped; a call at time 600 stamps the time. -/
theorem flood_rate_limit_witness :
    send_flood_request 100 7 (fun _ => 9) stW = (stW, []) ∧
    (send_flood_request 600 7 (fun _ => 9) stW).1.last_flood_timestamp = 600 := by
  refine ⟨(flood_rate_limit stW 100 0 7 0 (fun _ => 9) (fun _ => 9)).1 (by decide),
    ((flood_rate_limit stW 600 0 7 0 (fun _ => 9) (fun _ => 9)).2 (by decide)).1⟩

/-! ## C10: the next hop must be a registered neighbour -/

/-- C10: when the routing header is non-empty, `send_packet` demands that
the hop at `hop_index` be a registered neighbour: with no senders entry for
that node id it panics, and when the next hop is registered the panic
branch is unreachable and the packet is handed to that neighbour. -/
theorem send_packet_panic_condition (message : Packet) (destination_id : NodeId)
    (st : ClientState) (hop : NodeId)
    (hhop : message.routing_header.hops.get? message.routing_header.hop_index = some hop) :
    (hop ∉ st.senders → send_packet message destination_id st = none) ∧
    (hop ∈ st.senders → (send_packet message destination_id st).map Prod.snd =
      some [ClientOut.toNeighbor hop message]) := by
  have hne : ¬ message.routing_header.hops.isEmpty := by
    intro hempty
    rw [List.isEmpty_iff] at hempty
    rw [hempty] at hhop
    simp at hhop
  have hhop' : message.routing_header.hops[message.routing_header.hop_index]? = some hop := by
    simpa [List.get?_eq_getElem?] using hhop
  constructor
  · intro habs
    cases hpt : message.pack_type <;> simp [send_packet, hne, hhop', habs, hpt]
  · intro hmem
    cases hpt : message.pack_type <;> simp [send_packet, hne, hhop', hmem, hpt]

/-- Witness for C10: sending `pFragW` (next hop 2, a neighbour) succeeds,
and the same packet on a client with no senders panics. -/
theorem send_packet_panic_condition_witness :
    (send_packet pFragW 21 stW).map Prod.snd = some [ClientOut.toNeighbor 2 pFragW] ∧
    send_packet pFragW 21 { stW with senders := [] } = none := by
  refine ⟨(send_packet_panic_condition pFragW 21 stW 2 (by decide)).2 (by decide),
    (send_packet_panic_condition pFragW 21 { stW with senders := [] } 2 (by decide)).1
      (by decide)⟩

/-! ## ACK-handler step lemmas -/

theorem countTrue_append (l1 l2 : List Bool) :
    countTrue (l1 ++ l2) = countTrue l1 + countTrue l2 := by
  simp [countTrue, List.filter_append]

theorem countTrue_vecInsert_true (idx : Nat) (l : List Bool) :
    countTrue (vecInsert idx true l) = countTrue l + 1 := by
  unfold vecInsert
  rw [countTrue_append]
  have h1 : countTrue (true :: l.drop idx) = countTrue (l.drop idx) + 1 := by
    simp [countTrue, Nat.add_comm]
  rw [h1, ← Nat.add_assoc, ← countTrue_append, List.take_append_drop]

theorem vecInsert_length {idx : Nat} {l : List Bool} (h : idx ≤ l.length) (b : Bool) :
    (vecInsert idx b l).length = l.length + 1 := by
  simp [vecInsert]
  omega

/-- The state `on_ack_received` leaves when the session is not retired:
only the bitmap entry of the packet's session is replaced with the
`Vec::insert`-updated vector. -/
def ackLiveState (packet : Packet) (ack : Ack) (st : ClientState) : ClientState :=
  { st with acked_packets := (ainsert packet.session_id
      (vecInsert ack.fragment_index true
        ((alookup packet.session_id st.acked_packets).getD []))
      st.acked_packets) }

/-- The state `on_ack_received` leaves when the session retires: the sent
log and bitmap entries of the session are removed. -/
def ackRetireState (packet : Packet) (ack : Ack) (st : ClientState) : ClientState :=
  { ackLiveState packet ack st with
    sent_packets := (aremove packet.session_id st.sent_packets)
    acked_packets := (aremove packet.session_id (ackLiveState packet ack st).acked_packets) }

theorem ackLiveState_sent (packet : Packet) (ack : Ack) (st : ClientState) :
    (ackLiveState packet ack st).sent_packets = st.sent_packets := rfl

theorem ackLiveState_acked_self (packet : Packet) (ack : Ack) (st : ClientState) :
    alookup packet.session_id (ackLiveState packet ack st).acked_packets =
      some (vecInsert ack.fragment_index true
        ((alookup packet.session_id st.acked_packets).getD [])) := by
  simp [ackLiveState, alookup_ainsert_self]

theorem ackLiveState_acked_ne (packet : Packet) (ack : Ack) (st : ClientState)
    {s : Nat} (h : s ≠ packet.session_id) :
    alookup s (ackLiveState packet ack st).acked_packets =
      alookup s st.acked_packets := by
  simp [ackLiveState]
  exact alookup_ainsert_ne _ _ (fun he => h he.symm)

/-- `on_ack_received` when `Vec::insert` is out of bounds: panic. -/
theorem on_ack_step_none (packet : Packet) (ack : Ack) (st : ClientState)
    (hidx : ((alookup packet.session_id st.acked_packets).getD []).length < ack.fragment_index) :
    on_ack_received packet ack st = none := by
  simp [on_ack_received, Nat.not_le.mpr hidx]

/-- `on_ack_received` for a session with no sent log: the bitmap update has
already happened when the check fires. -/
theorem on_ack_step_unknown (packet : Packet) (ack : Ack) (st : ClientState)
    (hsent : alookup packet.session_id st.sent_packets = none)
    (hidx : ack.fragment_index ≤ ((alookup packet.session_id st.acked_packets).getD []).length) :
    on_ack_received packet ack st = some (ackLiveState packet ack st, []) := by
  simp [on_ack_received, hidx, hsent, ackLiveState]

/-- `on_ack_received` for a live session that does not retire. -/
theorem on_ack_step_live (packet : Packet) (ack : Ack) (st : ClientState)
    (sent : List Packet)
    (hsent : alookup packet.session_id st.sent_packets = some sent)
    (hidx : ack.fragment_index ≤ ((alookup packet.session_id st.acked_packets).getD []).length)
    (hnoret : ¬ sent.length ≤ countTrue (vecInsert ack.fragment_index true
      ((alookup packet.session_id st.acked_packets).getD []))) :
    on_ack_received packet ack st = some (ackLiveState packet ack st, []) := by
  simp [on_ack_received, hidx, hsent, hnoret, ackLiveState]

/-- `on_ack_received` when the true-count reaches the sent-log length. -/
theorem on_ack_step_retire (packet : Packet) (ack : Ack) (st : ClientState)
    (sent : List Packet)
    (hsent : alookup packet.session_id st.sent_packets = some sent)
    (hidx : ack.fragment_index ≤ ((alookup packet.session_id st.acked_packets).getD []).length)
    (hret : sent.length ≤ countTrue (vecInsert ack.fragment_index true
      ((alookup packet.session_id st.acked_packets).getD []))) :
    on_ack_received packet ack st = some (ackRetireState packet ack st, []) := by
  simp [on_ack_received, hidx, hsent, hret, ackRetireState, ackLiveState]

/-! ## C6: ACK for an unknown session -/

/-- An ACK packet for session 9 (unknown to `stW`). -/
def ackPkt9 : Packet :=
  { pack_type := PacketType.Ack { fragment_index := 0 }
    routing_header := { hop_index := 1, hops := [21, 2, 1] }
    session_id := 9 }

/-- C6 (amended): an ACK for a session absent from the sent log emits no
packet and leaves the sent log untouched, but it is not ignored entirely:
the bitmap update has already run when the unknown-session check fires, so
`acked_packets` gains (or extends) an entry for the unknown session; and
when `fragment_index` exceeds the current bitmap length — any index ≥ 1
for a session with no bitmap — `Vec::insert` panics instead of returning
normally. -/
theorem ack_unknown_session_amended (packet : Packet) (ack : Ack) (st : ClientState)
    (hunknown : alookup packet.session_id st.sent_packets = none) :
    (ack.fragment_index ≤ ((alookup packet.session_id st.acked_packets).getD []).length →
      on_ack_received packet ack st = some (ackLiveState packet ack st, []) ∧
      (ackLiveState packet ack st).sent_packets = st.sent_packets ∧
      (ackLiveState packet ack st).packets_to_send = st.packets_to_send ∧
      alookup packet.session_id (ackLiveState packet ack st).acked_packets =
        some (vecInsert ack.fragment_index true
          ((alookup packet.session_id st.acked_packets).getD []))) ∧
    (((alookup packet.session_id st.acked_packets).getD []).length < ack.fragment_index →
      on_ack_received packet ack st = none) :=
  ⟨fun h => ⟨on_ack_step_unknown packet ack st hunknown h, rfl, rfl,
      ackLiveState_acked_self packet ack st⟩,
   fun h => on_ack_step_none packet ack st h⟩

/-- Witness for C6: on the base state, an unknown-session ACK with index 0
returns normally with the mutated bitmap map, and one with index 3
panics. -/
theorem ack_unknown_session_amended_witness :
    on_ack_received ackPkt9 { fragment_index := 0 } stW =
      some (ackLiveState ackPkt9 { fragment_index := 0 } stW, []) ∧
    on_ack_received ackPkt9 { fragment_index := 3 } stW = none :=
  ⟨((ack_unknown_session_amended ackPkt9 { fragment_index := 0 } stW
      (by decide)).1 (by decide)).1,
   (ack_unknown_session_amended ackPkt9 { fragment_index := 3 } stW
      (by decide)).2 (by decide)⟩

/-- Counterexample to C6 as stated: processing an ACK for unknown session 9
terminates normally but does not leave the client state unchanged — the
bitmap map has gained an entry for session 9. -/
theorem ack_unknown_session_cx :
    on_ack_received ackPkt9 { fragment_index := 0 } stW =
      some ({ stW with acked_packets := [(9, [true])] }, []) ∧
    ({ stW with acked_packets := [(9, [true])] } : ClientState) ≠ stW :=
  ⟨by decide, by decide⟩

/-! ## C2: ACK processing is not idempotent -/

/-- C2 (amended): re-processing the same `(session_id, fragment_index)`
while the session remains live is not idempotent — `Vec::insert` inserts
an additional `true` bit at the index (it shifts instead of setting), so
the bitmap's true-count grows by one and the state after the second
processing differs from the state after the first. -/
theorem ack_not_idempotent_amended (packet : Packet) (ack : Ack) (st : ClientState)
    (sent : List Packet)
    (hsent : alookup packet.session_id st.sent_packets = some sent)
    (hidx : ack.fragment_index ≤ ((alookup packet.session_id st.acked_packets).getD []).length)
    (hlive : countTrue (vecInsert ack.fragment_index true
      ((alookup packet.session_id st.acked_packets).getD [])) + 1 < sent.length) :
    on_ack_received packet ack st = some (ackLiveState packet ack st, []) ∧
    on_ack_received packet ack (ackLiveState packet ack st) =
      some (ackLiveState packet ack (ackLiveState packet ack st), []) ∧
    countTrue ((alookup packet.session_id
        (ackLiveState packet ack (ackLiveState packet ack st)).acked_packets).getD []) =
      countTrue ((alookup packet.session_id
        (ackLiveState packet ack st).acked_packets).getD []) + 1 ∧
    ackLiveState packet ack (ackLiveState packet ack st) ≠ ackLiveState packet ack st := by
  have hnoret1 : ¬ sent.length ≤ countTrue (vecInsert ack.fragment_index true
      ((alookup packet.session_id st.acked_packets).getD [])) := by omega
  have h1 := on_ack_step_live packet ack st sent hsent hidx hnoret1
  have hcur1 : (alookup packet.session_id (ackLiveState packet ack st).acked_packets).getD []
      = vecInsert ack.fragment_index true
        ((alookup packet.session_id st.acked_packets).getD []) := by
    rw [ackLiveState_acked_self]
    rfl
  have hidx2 : ack.fragment_index ≤
      ((alookup packet.session_id (ackLiveState packet ack st).acked_packets).getD []).length := by
    rw [hcur1, vecInsert_length hidx]
    omega
  have hsent2 : alookup packet.session_id (ackLiveState packet ack st).sent_packets =
      some sent := by
    rw [ackLiveState_sent]
    exact hsent
  have hnoret2 : ¬ sent.length ≤ countTrue (vecInsert ack.fragment_index true
      ((alookup packet.session_id (ackLiveState packet ack st).acked_packets).getD [])) := by
    rw [hcur1, countTrue_vecInsert_true]
    omega
  have h2 := on_ack_step_live packet ack (ackLiveState packet ack st) sent hsent2 hidx2 hnoret2
  refine ⟨h1, h2, ?_, ?_⟩
  · rw [ackLiveState_acked_self, ackLiveState_acked_self, Option.getD_some, Option.getD_some]
    exact countTrue_vecInsert_true _ _
  · intro heq
    have hlk := congrArg (fun s : ClientState => alookup packet.session_id s.acked_packets) heq
    simp only [ackLiveState_acked_self] at hlk
    have hct := congrArg (fun o : Option (List Bool) => countTrue (o.getD [])) hlk
    simp only [Option.getD_some, countTrue_vecInsert_true, hcur1] at hct
    omega

/-- Concrete state for the C2 counterexample: session 0 has four sent
fragments and the bitmap `[false, false, false, false]`. -/
def stC2 : ClientState :=
  { stW with
    sent_packets := [(0, [pFragW, pFragW, pFragW, pFragW])]
    acked_packets := [(0, [false, false, false, false])] }

/-- An ACK packet for session 0, fragment 0. -/
def ackPkt0 : Packet :=
  { pack_type := PacketType.Ack { fragment_index := 0 }
    routing_header := { hop_index := 1, hops := [21, 2, 1] }
    session_id := 0 }

/-- Counterexample to C2 as stated: processing the same ACK twice on `stC2`
does not leave the state as after the first processing — the second
processing inserts one more `true` bit. -/
theorem ack_idempotent_cx :
    on_ack_received ackPkt0 { fragment_index := 0 } stC2 =
      some ({ stC2 with acked_packets := [(0, [true, false, false, false, false])] }, []) ∧
    on_ack_received ackPkt0 { fragment_index := 0 }
        ({ stC2 with acked_packets := [(0, [true, false, false, false, false])] }) =
      some ({ stC2 with acked_packets := [(0, [true, true, false, false, false, false])] }, []) ∧
    ({ stC2 with acked_packets := [(0, [true, true, false, false, false, false])] } : ClientState) ≠
      { stC2 with acked_packets := [(0, [true, false, false, false, false])] } :=
  ⟨by decide, by decide, by decide⟩

/-- Witness for C2 (amended): the non-idempotence theorem instantiated on the
concrete state `stC2` (session 0, four sent fragments, all-false bitmap). -/
theorem ack_not_idempotent_amended_witness :
    on_ack_received ackPkt0 { fragment_index := 0 } stC2 =
      some (ackLiveState ackPkt0 { fragment_index := 0 } stC2, []) ∧
    on_ack_received ackPkt0 { fragment_index := 0 }
        (ackLiveState ackPkt0 { fragment_index := 0 } stC2) =
      some (ackLiveState ackPkt0 { fragment_index := 0 }
        (ackLiveState ackPkt0 { fragment_index := 0 } stC2), []) ∧
    countTrue ((alookup ackPkt0.session_id
        (ackLiveState ackPkt0 { fragment_index := 0 }
          (ackLiveState ackPkt0 { fragment_index := 0 } stC2)).acked_packets).getD []) =
      countTrue ((alookup ackPkt0.session_id
        (ackLiveState ackPkt0 { fragment_index := 0 } stC2).acked_packets).getD []) + 1 ∧
    ackLiveState ackPkt0 { fragment_index := 0 }
        (ackLiveState ackPkt0 { fragment_index := 0 } stC2) ≠
      ackLiveState ackPkt0 { fragment_index := 0 } stC2 :=
  ack_not_idempotent_amended ackPkt0 { fragment_index := 0 } stC2
    [pFragW, pFragW, pFragW, pFragW] (by decide) (by decide) (by decide)

/-! ## C1: sent-log bound, bitmap monotonicity, retirement -/

/-- C1 (amended): `send_packet` appends on every call — retransmissions
included — so the sent log can exceed `total_fragments` (see the
counterexample); what ACK processing does guarantee is: it never adds or
alters a sent-log entry (so a retired session never re-enters the sent log
through ACK handling), the true-count of every surviving bitmap never
decreases, and as soon as the inserted bitmap's true-count reaches the
sent-log length the session is retired — both the bitmap and the sent-log
entry for that `session_id` are removed. -/
theorem ack_retirement_amended (packet : Packet) (ack : Ack) (st : ClientState)
    (hidx : ack.fragment_index ≤ ((alookup packet.session_id st.acked_packets).getD []).length) :
    ∃ st', on_ack_received packet ack st = some (st', []) ∧
      (∀ s l, alookup s st'.sent_packets = some l → alookup s st.sent_packets = some l) ∧
      (∀ s v v', alookup s st.acked_packets = some v →
        alookup s st'.acked_packets = some v' → countTrue v ≤ countTrue v') ∧
      (∀ sent, alookup packet.session_id st.sent_packets = some sent →
        sent.length ≤ countTrue (vecInsert ack.fragment_index true
          ((alookup packet.session_id st.acked_packets).getD [])) →
        alookup packet.session_id st'.sent_packets = none ∧
        alookup packet.session_id st'.acked_packets = none) := by
  have hmono : ∀ s v v', alookup s st.acked_packets = some v →
      alookup s (ackLiveState packet ack st).acked_packets = some v' →
      countTrue v ≤ countTrue v' := by
    intro s v v' hv hv'
    by_cases hs : s = packet.session_id
    · subst hs
      rw [ackLiveState_acked_self, hv] at hv'
      have : v' = vecInsert ack.fragment_index true v := by
        have := (Option.some.inj hv').symm
        simpa using this
      rw [this, countTrue_vecInsert_true]
      omega
    · rw [ackLiveState_acked_ne packet ack st hs, hv] at hv'
      rw [Option.some.inj hv']
  rcases hsent : alookup packet.session_id st.sent_packets with _ | sent
  · refine ⟨_, on_ack_step_unknown packet ack st hsent hidx, ?_, hmono, ?_⟩
    · intro s l hl
      rw [ackLiveState_sent] at hl
      exact hl
    · intro sent h
      exact absurd h (by simp)
  · by_cases hret : sent.length ≤ countTrue (vecInsert ack.fragment_index true
        ((alookup packet.session_id st.acked_packets).getD []))
    · refine ⟨_, on_ack_step_retire packet ack st sent hsent hidx hret, ?_, ?_, ?_⟩
      · intro s l hl
        by_cases hs : s = packet.session_id
        · subst hs
          rw [show (ackRetireState packet ack st).sent_packets =
              aremove packet.session_id st.sent_packets from rfl,
            alookup_aremove_self] at hl
          exact absurd hl (by simp)
        · rw [show (ackRetireState packet ack st).sent_packets =
              aremove packet.session_id st.sent_packets from rfl,
            alookup_aremove_ne _ (fun he => hs he.symm)] at hl
          exact hl
      · intro s v v' hv hv'
        by_cases hs : s = packet.session_id
        · subst hs
          rw [show (ackRetireState packet ack st).acked_packets =
              aremove packet.session_id (ackLiveState packet ack st).acked_packets from rfl,
            alookup_aremove_self] at hv'
          exact absurd hv' (by simp)
        · rw [show (ackRetireState packet ack st).acked_packets =
              aremove packet.session_id (ackLiveState packet ack st).acked_packets from rfl,
            alookup_aremove_ne _ (fun he => hs he.symm),
            ackLiveState_acked_ne packet ack st hs, hv] at hv'
          rw [Option.some.inj hv']
      · intro sent' hs' hle
        refine ⟨?_, ?_⟩
        · rw [show (ackRetireState packet ack st).sent_packets =
              aremove packet.session_id st.sent_packets from rfl]
          exact alookup_aremove_self _ _
        · rw [show (ackRetireState packet ack st).acked_packets =
              aremove packet.session_id (ackLiveState packet ack st).acked_packets from rfl]
          exact alookup_aremove_self _ _
    · refine ⟨_, on_ack_step_live packet ack st sent hsent hidx hret, ?_, hmono, ?_⟩
      · intro s l hl
        rw [ackLiveState_sent] at hl
        exact hl
      · intro sent' hs' hle
        have hss : sent = sent' := Option.some.inj hs'
        subst hss
        exact absurd hle hret

/-- A state whose session 0 holds one sent fragment and bitmap `[false]`. -/
def stC1 : ClientState :=
  { stW with sent_packets := [(0, [pFragW])], acked_packets := [(0, [false])] }

/-- Witness for C1: on `stC1`, the single ACK retires session 0 — both the
sent log and the bitmap lose the entry, and nothing re-enters. -/
theorem ack_retirement_amended_witness :
    ∃ st', on_ack_received ackPkt0 { fragment_index := 0 } stC1 = some (st', []) ∧
      (∀ s l, alookup s st'.sent_packets = some l → alookup s stC1.sent_packets = some l) ∧
      (∀ s v v', alookup s stC1.acked_packets = some v →
        alookup s st'.acked_packets = some v' → countTrue v ≤ countTrue v') ∧
      (∀ sent, alookup (0 : Nat) stC1.sent_packets = some sent →
        sent.length ≤ countTrue (vecInsert 0 true
          ((alookup (0 : Nat) stC1.acked_packets).getD [])) →
        alookup (0 : Nat) st'.sent_packets = none ∧
        alookup (0 : Nat) st'.acked_packets = none) :=
  ack_retirement_amended ackPkt0 { fragment_index := 0 } stC1 (by decide)

/-- The NACK that asks for a retransmission of fragment 0 of session 0. -/
def nackPktC1 : Packet :=
  { pack_type := PacketType.Nack { fragment_index := 0, nack_type := NackType.Dropped }
    routing_header := { hop_index := 1, hops := [21, 2, 1] }
    session_id := 0 }

/-- Counterexample to C1 as stated: after a `Dropped` NACK triggers a
retransmission, the sent log of session 0 holds 2 packets while the
fragment's `total_n_fragments` is 1 — the log exceeds the fragment
count. -/
theorem sent_log_exceeds_total_cx :
    (on_nack_received 600 77 (fun _ => 0) nackPktC1
        { fragment_index := 0, nack_type := NackType.Dropped } stC1).map
      (fun r => ((alookup (0 : Nat) r.1.sent_packets).getD []).length) = some 2 ∧
    fragW.total_n_fragments = 1 :=
  ⟨by decide, by decide⟩

/-! ## Flood-request field lemmas -/

theorem send_flood_request_sent (now floodId : Nat) (sessIds : Nat → Nat)
    (st : ClientState) :
    (send_flood_request now floodId sessIds st).1.sent_packets = st.sent_packets := by
  unfold send_flood_request
  by_cases h : st.last_flood_timestamp + TIMEOUT_BETWEEN_FLOODS_MS > now <;> simp [h]

theorem send_flood_request_acked (now floodId : Nat) (sessIds : Nat → Nat)
    (st : ClientState) :
    (send_flood_request now floodId sessIds st).1.acked_packets = st.acked_packets := by
  unfold send_flood_request
  by_cases h : st.last_flood_timestamp + TIMEOUT_BETWEEN_FLOODS_MS > now <;> simp [h]

theorem send_flood_request_pts (now floodId : Nat) (sessIds : Nat → Nat)
    (st : ClientState) :
    (send_flood_request now floodId sessIds st).1.packets_to_send = st.packets_to_send := by
  unfold send_flood_request
  by_cases h : st.last_flood_timestamp + TIMEOUT_BETWEEN_FLOODS_MS > now <;> simp [h]

theorem send_flood_request_topology (now floodId : Nat) (sessIds : Nat → Nat)
    (st : ClientState) :
    (send_flood_request now floodId sessIds st).1.topology = st.topology := by
  unfold send_flood_request
  by_cases h : st.last_flood_timestamp + TIMEOUT_BETWEEN_FLOODS_MS > now <;> simp [h]

theorem send_flood_request_outs (now floodId : Nat) (sessIds : Nat → Nat)
    (st : ClientState) (n : NodeId) (p : Packet)
    (hmem : ClientOut.toNeighbor n p ∈ (send_flood_request now floodId sessIds st).2) :
    ∃ fr, p.pack_type = PacketType.FloodRequest fr := by
  unfold send_flood_request at hmem
  by_cases h : st.last_flood_timestamp + TIMEOUT_BETWEEN_FLOODS_MS > now
  · simp [h] at hmem
  · simp [h, List.mem_append, List.mem_map] at hmem
    obtain ⟨a, b, _, hab⟩ := hmem
    have hp := hab.2
    exact ⟨_, by rw [← hp]; rfl⟩

/-! ## C5: NACK with fragment_index beyond the sent log -/

/-- C5 (amended): a NACK whose `fragment_index` is at or beyond the
session's sent-log length skips the retransmission — the sent log, the ACK
bitmaps and the pending-route queue are unchanged and no fragment is
re-emitted (every emitted packet is a flood request) — but the kind-driven
side effects have already run: `Dropped` updates the topology's drop
statistics, any other kind may emit a flood request, and `ErrorInRouting`
removes the offending node from the topology (see the counterexample). -/
theorem nack_beyond_log_amended (now floodId : Nat) (sessIds : Nat → Nat)
    (packet : Packet) (nack : Nack) (st : ClientState) (sent : List Packet)
    (hsent : alookup packet.session_id st.sent_packets = some sent)
    (hbeyond : sent.length ≤ nack.fragment_index)
    (hdrop : nack.nack_type = NackType.Dropped → packet.routing_header.hops ≠ []) :
    ∃ st' outs, on_nack_received now floodId sessIds packet nack st = some (st', outs) ∧
      st'.sent_packets = st.sent_packets ∧
      st'.acked_packets = st.acked_packets ∧
      st'.packets_to_send = st.packets_to_send ∧
      (∀ n p, ClientOut.toNeighbor n p ∈ outs →
        ∃ fr, p.pack_type = PacketType.FloodRequest fr) := by
  have hnoget : sent[nack.fragment_index]? = none := List.getElem?_eq_none hbeyond
  cases hk : nack.nack_type with
  | Dropped =>
    have hne : packet.routing_header.hops ≠ [] := hdrop hk
    have hrevne : packet.routing_header.hops.reverse ≠ [] := by
      simpa using hne
    obtain ⟨a, l, hal⟩ := List.exists_cons_of_ne_nil hrevne
    have hget0 : packet.routing_header.get_reversed.hops[0]? = some a := by
      simp [SourceRoutingHeader.get_reversed, hal]
    refine ⟨{ st with topology := st.topology.update_node_history [a] true }, [],
      ?_, rfl, rfl, rfl, ?_⟩
    · by_cases hlt : sent.length < nack.fragment_index
      · simp [on_nack_received, hk, hget0, hsent, hlt]
      · simp [on_nack_received, hk, hget0, hsent, hlt, hnoget]
    · intro n p hmem
      exact absurd hmem (by simp)
  | ErrorInRouting e =>
    rcases hf : send_flood_request now floodId sessIds st with ⟨stF, outsF⟩
    have h1 : stF.sent_packets = st.sent_packets := by
      rw [show stF = (send_flood_request now floodId sessIds st).1 from by rw [hf]]
      exact send_flood_request_sent now floodId sessIds st
    have h2 : stF.acked_packets = st.acked_packets := by
      rw [show stF = (send_flood_request now floodId sessIds st).1 from by rw [hf]]
      exact send_flood_request_acked now floodId sessIds st
    have h3 : stF.packets_to_send = st.packets_to_send := by
      rw [show stF = (send_flood_request now floodId sessIds st).1 from by rw [hf]]
      exact send_flood_request_pts now floodId sessIds st
    have h4 : ∀ n p, ClientOut.toNeighbor n p ∈ outsF →
        ∃ fr, p.pack_type = PacketType.FloodRequest fr := by
      intro n p hmem
      exact send_flood_request_outs now floodId sessIds st n p (by rw [hf]; exact hmem)
    by_cases hlt : sent.length < nack.fragment_index
    · exact ⟨{ stF with topology := stF.topology.remove_node e }, outsF,
        by simp [on_nack_received, hk, hf, h1, hsent, hlt], h1, h2, h3, h4⟩
    · exact ⟨{ stF with topology := stF.topology.remove_node e }, outsF,
        by simp [on_nack_received, hk, hf, h1, hsent, hlt, hnoget], h1, h2, h3, h4⟩
  | DestinationIsDrone =>
    rcases hf : send_flood_request now floodId sessIds st with ⟨stF, outsF⟩
    have h1 : stF.sent_packets = st.sent_packets := by
      rw [show stF = (send_flood_request now floodId sessIds st).1 from by rw [hf]]
      exact send_flood_request_sent now floodId sessIds st
    have h2 : stF.acked_packets = st.acked_packets := by
      rw [show stF = (send_flood_request now floodId sessIds st).1 from by rw [hf]]
      exact send_flood_request_acked now floodId sessIds st
    have h3 : stF.packets_to_send = st.packets_to_send := by
      rw [show stF = (send_flood_request now floodId sessIds st).1 from by rw [hf]]
      exact send_flood_request_pts now floodId sessIds st
    have h4 : ∀ n p, ClientOut.toNeighbor n p ∈ outsF →
        ∃ fr, p.pack_type = PacketType.FloodRequest fr := by
      intro n p hmem
      exact send_flood_request_outs now floodId sessIds st n p (by rw [hf]; exact hmem)
    by_cases hlt : sent.length < nack.fragment_index
    · exact ⟨stF, outsF, by simp [on_nack_received, hk, hf, h1, hsent, hlt], h1, h2, h3, h4⟩
    · exact ⟨stF, outsF, by simp [on_nack_received, hk, hf, h1, hsent, hlt, hnoget],
        h1, h2, h3, h4⟩
  | UnexpectedRecipient =>
    rcases hf : send_flood_request now floodId sessIds st with ⟨stF, outsF⟩
    have h1 : stF.sent_packets = st.sent_packets := by
      rw [show stF = (send_flood_request now floodId sessIds st).1 from by rw [hf]]
      exact send_flood_request_sent now floodId sessIds st
    have h2 : stF.acked_packets = st.acked_packets := by
      rw [show stF = (send_flood_request now floodId sessIds st).1 from by rw [hf]]
      exact send_flood_request_acked now floodId sessIds st
    have h3 : stF.packets_to_send = st.packets_to_send := by
      rw [show stF = (send_flood_request now floodId sessIds st).1 from by rw [hf]]
      exact send_flood_request_pts now floodId sessIds st
    have h4 : ∀ n p, ClientOut.toNeighbor n p ∈ outsF →
        ∃ fr, p.pack_type = PacketType.FloodRequest fr := by
      intro n p hmem
      exact send_flood_request_outs now floodId sessIds st n p (by rw [hf]; exact hmem)
    by_cases hlt : sent.length < nack.fragment_index
    · exact ⟨stF, outsF, by simp [on_nack_received, hk, hf, h1, hsent, hlt], h1, h2, h3, h4⟩
    · exact ⟨stF, outsF, by simp [on_nack_received, hk, hf, h1, hsent, hlt, hnoget],
        h1, h2, h3, h4⟩

/-- A NACK packet for session 0 carrying `UnexpectedRecipient` with an
out-of-range fragment index. -/
def nackPktBeyond : Packet :=
  { pack_type := PacketType.Nack
      { fragment_index := 7, nack_type := NackType.UnexpectedRecipient }
    routing_header := { hop_index := 1, hops := [21, 2, 1] }
    session_id := 0 }

/-- Witness for C5 on `stC1` (session 0 has one sent packet; index 7 is
beyond the log). -/
theorem nack_beyond_log_amended_witness :
    ∃ st' outs, on_nack_received 600 77 (fun _ => 0) nackPktBeyond
        { fragment_index := 7, nack_type := NackType.UnexpectedRecipient } stC1 =
        some (st', outs) ∧
      st'.sent_packets = stC1.sent_packets ∧
      st'.acked_packets = stC1.acked_packets ∧
      st'.packets_to_send = stC1.packets_to_send ∧
      (∀ n p, ClientOut.toNeighbor n p ∈ outs →
        ∃ fr, p.pack_type = PacketType.FloodRequest fr) :=
  nack_beyond_log_amended 600 77 (fun _ => 0) nackPktBeyond
    { fragment_index := 7, nack_type := NackType.UnexpectedRecipient } stC1
    [pFragW] (by decide) (by decide) (by simp)

/-- A NACK packet for session 0 carrying `ErrorInRouting(2)` with an
out-of-range fragment index. -/
def nackPktErr2 : Packet :=
  { pack_type := PacketType.Nack
      { fragment_index := 7, nack_type := NackType.ErrorInRouting 2 }
    routing_header := { hop_index := 1, hops := [21, 2, 1] }
    session_id := 0 }

/-- Counterexample to C5 as stated: a beyond-log `ErrorInRouting(2)` NACK
does mutate state and does emit packets — node 2 disappears from the
topology and a flood request goes out. -/
theorem nack_beyond_log_mutates_cx :
    (on_nack_received 600 77 (fun _ => 0) nackPktErr2
        { fragment_index := 7, nack_type := NackType.ErrorInRouting 2 } stC1).map
      (fun r => r.1.topology.nodes) = some [1, 21] ∧
    stC1.topology.nodes = [1, 2, 21] ∧
    (on_nack_received 600 77 (fun _ => 0) nackPktErr2
        { fragment_index := 7, nack_type := NackType.ErrorInRouting 2 } stC1).map
      (fun r => r.2.length) = some 2 :=
  ⟨by decide, by decide, by decide⟩

/-! ## C4: NACK with a known session — flood, node removal, retransmit -/

/-- The outputs of a successful `send_flood_request`. -/
def floodOuts (st : ClientState) (floodId : Nat) (sessIds : Nat → Nat) : List ClientOut :=
  st.senders.enum.map
    (fun p => ClientOut.toNeighbor p.2 (floodRequestPacket st.client_id floodId (sessIds p.1))) ++
    [ClientOut.toController CtrlMsg.FloodRequestSentEvt]

theorem send_flood_request_hit (now floodId : Nat) (sessIds : Nat → Nat)
    (st : ClientState) (h : st.last_flood_timestamp + TIMEOUT_BETWEEN_FLOODS_MS ≤ now) :
    send_flood_request now floodId sessIds st =
      ({ st with last_flood_timestamp := now
                 sent_flood_ids := st.sent_flood_ids ++ [floodId] },
       floodOuts st floodId sessIds) := by
  unfold send_flood_request
  rw [if_neg (by omega)]
  rfl

/-- The kind-specific topology mutation of `on_nack_received`:
`ErrorInRouting` removes the offending node, other kinds leave the
topology alone. -/
def nackKindTopo (k : NackType) (t : Topology) : Topology :=
  match k with
  | NackType.ErrorInRouting e => t.remove_node e
  | _ => t

theorem remove_node_nodes (t : Topology) (e : NodeId) :
    (t.remove_node e).nodes = t.nodes.filter (fun n => n ≠ e) := rfl

theorem update_node_history_nodes (t : Topology) (r : List NodeId) (d : Bool) :
    (t.update_node_history r d).nodes = t.nodes := rfl

theorem aremove_of_not_mem {α β : Type} [DecidableEq α] (k : α) (m : List (α × β))
    (h : ∀ p ∈ m, p.1 ≠ k) : aremove k m = m := by
  induction m with
  | nil => rfl
  | cons hd tl ih =>
    have hhd : hd.1 ≠ k := h hd (List.mem_cons_self hd tl)
    obtain ⟨k', v'⟩ := hd
    simp only [aremove, if_neg hhd]
    rw [ih (fun p hp => h p (List.mem_cons_of_mem _ hp))]

/-- `remove_node` is a no-op when the node is absent from a well-formed
topology (no adjacency key and no neighbour occurrence). -/
theorem remove_node_absent (t : Topology) (nid : NodeId)
    (h1 : nid ∉ t.nodes) (h2 : ∀ p ∈ t.edges, p.1 ≠ nid ∧ nid ∉ p.2) :
    t.remove_node nid = t := by
  unfold Topology.remove_node
  have hn : t.nodes.filter (fun n => n ≠ nid) = t.nodes := by
    apply List.filter_eq_self.mpr
    intro a ha
    simp only [ne_eq, decide_eq_true_eq]
    intro he
    exact h1 (he ▸ ha)
  have he : (aremove nid t.edges).map (fun e => (e.1, e.2.filter (fun n => n ≠ nid))) =
      t.edges := by
    rw [aremove_of_not_mem nid t.edges (fun p hp => (h2 p hp).1)]
    have hmap : ∀ (l : List (NodeId × List NodeId)), (∀ p ∈ l, nid ∉ p.2) →
        l.map (fun e => (e.1, e.2.filter (fun n => n ≠ nid))) = l := by
      intro l
      induction l with
      | nil => intro _; rfl
      | cons hd tl ih =>
        intro hl
        have hfil : hd.2.filter (fun n => n ≠ nid) = hd.2 := by
          apply List.filter_eq_self.mpr
          intro a ha
          simp only [ne_eq, decide_eq_true_eq]
          intro hanid
          exact hl hd (List.mem_cons_self hd tl) (hanid ▸ ha)
        simp only [List.map_cons, hfil]
        rw [ih (fun p hp => hl p (List.mem_cons_of_mem _ hp))]
    exact hmap t.edges (fun p hp => (h2 p hp).2)
  rw [hn, he]

/-- The state `send_packet` leaves after a successful (non-parked,
non-panicking) send: route history recorded, packet appended to the sent
log, and — for a fragment — the ACK bitmap initialised when absent. -/
def sendPacketState (message : Packet) (st : ClientState) : ClientState :=
  let base := { st with
    topology := st.topology.update_node_history message.routing_header.hops false
    sent_packets := (aupdate message.session_id (fun l => l ++ [message]) [] st.sent_packets) }
  match message.pack_type with
  | PacketType.MsgFragment f =>
    { base with acked_packets :=
        (aorInsert message.session_id (List.replicate f.total_n_fragments false) st.acked_packets) }
  | _ => base

/-- `send_packet` with a registered next hop: no panic, the packet is
handed to that neighbour, and the topology's node set is untouched. -/
theorem send_packet_success (message : Packet) (destination_id : NodeId)
    (st : ClientState) (hop : NodeId)
    (hhop : message.routing_header.hops[message.routing_header.hop_index]? = some hop)
    (hmem : hop ∈ st.senders) :
    send_packet message destination_id st =
      some (sendPacketState message st, [ClientOut.toNeighbor hop message]) ∧
    (sendPacketState message st).topology.nodes = st.topology.nodes := by
  have hne : ¬ message.routing_header.hops.isEmpty := by
    intro hempty
    rw [List.isEmpty_iff] at hempty
    rw [hempty] at hhop
    simp at hhop
  constructor
  · cases hpt : message.pack_type <;>
      simp [send_packet, sendPacketState, hne, hhop, hmem, hpt]
  · cases hpt : message.pack_type <;>
      simp [sendPacketState, hpt, update_node_history_nodes]

/-- C4: a NACK for a known session with a valid fragment index and a kind
other than `Dropped` (with the flood interval elapsed) emits a flood
request to every neighbour; `ErrorInRouting(nid)` additionally removes
`nid` from the topology — a no-op when `nid` is absent from a well-formed
topology — and the packet stored at `fragment_index` of the session's
sent log is re-emitted with a route freshly recomputed (over the updated
topology) to its original destination, the last hop of its stored
header. -/
theorem nack_flood_remove_retransmit (now floodId : Nat) (sessIds : Nat → Nat)
    (packet : Packet) (nack : Nack) (st : ClientState)
    (sent : List Packet) (lost : Packet) (dest hop : NodeId)
    (hsent : alookup packet.session_id st.sent_packets = some sent)
    (hget : sent[nack.fragment_index]? = some lost)
    (hdest : lost.routing_header.get_reversed.hops[0]? = some dest)
    (hkind : nack.nack_type ≠ NackType.Dropped)
    (hflood : st.last_flood_timestamp + TIMEOUT_BETWEEN_FLOODS_MS ≤ now)
    (hhop : ((nackKindTopo nack.nack_type st.topology).get_routing_header
        st.client_id dest).hops[1]? = some hop)
    (hmem : hop ∈ st.senders) :
    (∃ st', on_nack_received now floodId sessIds packet nack st =
        some (st', floodOuts st floodId sessIds ++
          [ClientOut.toNeighbor hop { lost with
            routing_header := (nackKindTopo nack.nack_type st.topology).get_routing_header
              st.client_id dest }]) ∧
      (∀ e, nack.nack_type = NackType.ErrorInRouting e → e ∉ st'.topology.nodes)) ∧
    (∀ (t : Topology) (nid : NodeId), nid ∉ t.nodes →
      (∀ p ∈ t.edges, p.1 ≠ nid ∧ nid ∉ p.2) → t.remove_node nid = t) := by
  refine ⟨?_, fun t nid h1 h2 => remove_node_absent t nid h1 h2⟩
  have hlt : ¬ sent.length < nack.fragment_index := by
    intro hcon
    rw [List.getElem?_eq_none (Nat.le_of_lt hcon)] at hget
    exact absurd hget (by simp)
  have hfl := send_flood_request_hit now floodId sessIds st hflood
  cases hk : nack.nack_type with
  | Dropped => exact absurd hk hkind
  | ErrorInRouting e =>
    rw [hk] at hhop
    have hsp := send_packet_success
      { lost with routing_header :=
          ((nackKindTopo (NackType.ErrorInRouting e) st.topology).get_routing_header
            st.client_id dest) }
      dest
      { st with
        last_flood_timestamp := now
        sent_flood_ids := st.sent_flood_ids ++ [floodId]
        topology := st.topology.remove_node e }
      hop hhop hmem
    refine ⟨sendPacketState
      { lost with routing_header :=
          ((nackKindTopo (NackType.ErrorInRouting e) st.topology).get_routing_header
            st.client_id dest) }
      { st with
        last_flood_timestamp := now
        sent_flood_ids := st.sent_flood_ids ++ [floodId]
        topology := st.topology.remove_node e }, ?_, ?_⟩
    · simp only [nackKindTopo] at hsp ⊢
      simp [on_nack_received, hk, hfl, hsent, hlt, hget, hdest, hsp.1, floodOuts]
    · intro e' he'
      have hee : e = e' := by
        cases he'
        rfl
      subst hee
      rw [hsp.2]
      simp [remove_node_nodes, List.mem_filter]
  | DestinationIsDrone =>
    rw [hk] at hhop
    have hsp := send_packet_success
      { lost with routing_header :=
          ((nackKindTopo NackType.DestinationIsDrone st.topology).get_routing_header
            st.client_id dest) }
      dest
      { st with
        last_flood_timestamp := now
        sent_flood_ids := st.sent_flood_ids ++ [floodId] }
      hop hhop hmem
    refine ⟨sendPacketState
      { lost with routing_header :=
          ((nackKindTopo NackType.DestinationIsDrone st.topology).get_routing_header
            st.client_id dest) }
      { st with
        last_flood_timestamp := now
        sent_flood_ids := st.sent_flood_ids ++ [floodId] }, ?_, ?_⟩
    · simp only [nackKindTopo] at hsp ⊢
      simp [on_nack_received, hk, hfl, hsent, hlt, hget, hdest, hsp.1, floodOuts]
    · intro e' he'
      exact absurd he' (by simp)
  | UnexpectedRecipient =>
    rw [hk] at hhop
    have hsp := send_packet_success
      { lost with routing_header :=
          ((nackKindTopo NackType.UnexpectedRecipient st.topology).get_routing_header
            st.client_id dest) }
      dest
      { st with
        last_flood_timestamp := now
        sent_flood_ids := st.sent_flood_ids ++ [floodId] }
      hop hhop hmem
    refine ⟨sendPacketState
      { lost with routing_header :=
          ((nackKindTopo NackType.UnexpectedRecipient st.topology).get_routing_header
            st.client_id dest) }
      { st with
        last_flood_timestamp := now
        sent_flood_ids := st.sent_flood_ids ++ [floodId] }, ?_, ?_⟩
    · simp only [nackKindTopo] at hsp ⊢
      simp [on_nack_received, hk, hfl, hsent, hlt, hget, hdest, hsp.1, floodOuts]
    · intro e' he'
      exact absurd he' (by simp)

/-- Diamond topology `1 — {2, 3} — 21` with both 2 and 3 drones. -/
def topoD : Topology :=
  { nodes := [1, 2, 3, 21]
    edges := [(1, [2, 3]), (2, [1, 21]), (3, [1, 21]), (21, [2, 3])]
    node_types := [(2, "drone"), (3, "drone"), (21, "server")]
    node_history := [] }

/-- The sent fragment of session 0 on the route through drone 2. -/
def pFragD : Packet :=
  { pack_type := PacketType.MsgFragment fragW
    routing_header := { hop_index := 1, hops := [1, 2, 21] }
    session_id := 0 }

/-- Client 1 on the diamond with both drones as neighbours and the session
0 fragment logged. -/
def stC4 : ClientState :=
  { stW with
    senders := [2, 3]
    topology := topoD
    sent_packets := [(0, [pFragD])]
    acked_packets := [(0, [false])] }

/-- The inbound `ErrorInRouting(2)` NACK for fragment 0 of session 0. -/
def nackPktC4 : Packet :=
  { pack_type := PacketType.Nack
      { fragment_index := 0, nack_type := NackType.ErrorInRouting 2 }
    routing_header := { hop_index := 1, hops := [21, 2, 1] }
    session_id := 0 }

/-- Witness for C4: on the diamond, the `ErrorInRouting(2)` NACK floods,
removes node 2, and re-emits the logged fragment to drone 3 over the
freshly computed route `[1, 3, 21]`. -/
theorem nack_flood_remove_retransmit_witness :
    (∃ st', on_nack_received 600 77 (fun i => 100 + i) nackPktC4
        { fragment_index := 0, nack_type := NackType.ErrorInRouting 2 } stC4 =
        some (st', floodOuts stC4 77 (fun i => 100 + i) ++
          [ClientOut.toNeighbor 3 { pFragD with
            routing_header := ((nackKindTopo (NackType.ErrorInRouting 2) stC4.topology).get_routing_header
              stC4.client_id 21) }]) ∧
      (∀ e, NackType.ErrorInRouting 2 = NackType.ErrorInRouting e →
        e ∉ st'.topology.nodes)) ∧
    (∀ (t : Topology) (nid : NodeId), nid ∉ t.nodes →
      (∀ p ∈ t.edges, p.1 ≠ nid ∧ nid ∉ p.2) → t.remove_node nid = t) :=
  nack_flood_remove_retransmit 600 77 (fun i => 100 + i) nackPktC4
    { fragment_index := 0, nack_type := NackType.ErrorInRouting 2 } stC4
    [pFragD] pFragD 21 3 (by decide) (by decide) (by decide) (by decide)
    (by decide) (by decide) (by decide)

/-! ## C3: every inbound fragment is ACKed exactly once -/

/-- Recognises an emitted Ack packet. -/
def isAckOut : ClientOut → Bool
  | ClientOut.toNeighbor _ p =>
    match p.pack_type with
    | PacketType.Ack _ => true
    | _ => false
  | _ => false

/-- The assembler/adapter stage of `on_fragment_received`, before the ACK
is sent. -/
def fragMidState (fromString : List Nat → Option ChatResponseWrapper)
    (packet : Packet) (fragment : Fragment) (source_id : NodeId)
    (st : ClientState) : ClientState × List ClientOut :=
  match assembler_add_fragment fragment packet.session_id st.assembler with
  | (buf, some message) =>
    on_text_response_arrived fromString source_id packet.session_id message
      { st with assembler := buf }
  | (buf, none) => ({ st with assembler := buf }, [])

/-- The Ack packet `send_ack` builds from a given state. -/
def ackPacketFor (st : ClientState) (fragment_index : Nat) (source_id : NodeId)
    (session_id : Nat) : Packet :=
  { pack_type := PacketType.Ack { fragment_index := fragment_index }
    session_id := session_id
    routing_header := st.topology.get_routing_header st.client_id source_id }

theorem handle_response_ctrl (r : ChatResponseWrapper) (sid : NodeId) (st : ClientState) :
    ∀ o ∈ (handle_response r sid st).2, ∃ m, o = ClientOut.toController m := by
  cases r with
  | Chat c => cases c <;> simp [handle_response, handle_chat_response]
  | ServerType sv =>
    cases sv with
    | ServerType t => cases t <;> simp [handle_response]

theorem handle_response_senders (r : ChatResponseWrapper) (sid : NodeId) (st : ClientState) :
    (handle_response r sid st).1.senders = st.senders ∧
    (handle_response r sid st).1.client_id = st.client_id := by
  cases r with
  | Chat c => cases c <;> simp [handle_response, handle_chat_response]
  | ServerType sv =>
    cases sv with
    | ServerType t => cases t <;> simp [handle_response]

theorem on_text_ctrl (fromString : List Nat → Option ChatResponseWrapper)
    (source_id : NodeId) (session_id : Nat) (raw : List Nat) (st : ClientState) :
    ∀ o ∈ (on_text_response_arrived fromString source_id session_id raw st).2,
      ∃ m, o = ClientOut.toController m := by
  unfold on_text_response_arrived
  cases hfs : fromString raw with
  | none => simp
  | some content => exact handle_response_ctrl content source_id st

theorem on_text_senders (fromString : List Nat → Option ChatResponseWrapper)
    (source_id : NodeId) (session_id : Nat) (raw : List Nat) (st : ClientState) :
    (on_text_response_arrived fromString source_id session_id raw st).1.senders = st.senders ∧
    (on_text_response_arrived fromString source_id session_id raw st).1.client_id = st.client_id := by
  unfold on_text_response_arrived
  cases hfs : fromString raw with
  | none => simp
  | some content => exact handle_response_senders content source_id st

theorem filter_isAckOut_nil (l : List ClientOut)
    (h : ∀ o ∈ l, ∃ m, o = ClientOut.toController m) : l.filter isAckOut = [] := by
  induction l with
  | nil => rfl
  | cons hd tl ih =>
    obtain ⟨m, hm⟩ := h hd (List.mem_cons_self hd tl)
    rw [hm, List.filter_cons]
    simp only [isAckOut]
    exact ih (fun o ho => h o (List.mem_cons_of_mem _ ho))

theorem sendPacketState_adapter (message : Packet) (st : ClientState) :
    (sendPacketState message st).available_clients = st.available_clients ∧
    (sendPacketState message st).registered_servers = st.registered_servers := by
  cases hpt : message.pack_type <;> simp [sendPacketState, hpt]

theorem fragMidState_senders (fromString : List Nat → Option ChatResponseWrapper)
    (packet : Packet) (fragment : Fragment) (source_id : NodeId) (st : ClientState) :
    (fragMidState fromString packet fragment source_id st).1.senders = st.senders ∧
    (fragMidState fromString packet fragment source_id st).1.client_id = st.client_id := by
  unfold fragMidState
  rcases hasm : assembler_add_fragment fragment packet.session_id st.assembler with ⟨buf, completed⟩
  cases completed with
  | none => simp
  | some msg =>
    simpa using on_text_senders fromString source_id packet.session_id msg
      { st with assembler := buf }

/-- C3: an inbound `MsgFragment` (with a recorded origin `hops[0]` and a
deliverable ACK route) produces exactly one Ack — emitted to the route's
first forwarder — whose `session_id` equals the packet's and whose
`fragment_index` equals the fragment's; it is produced whether or not the
reassembled payload deserializes, and when it does not (or the message is
incomplete) the adapter state (`available_clients`, `registered_servers`)
is untouched. -/
theorem fragment_acked_exactly_once (fromString : List Nat → Option ChatResponseWrapper)
    (packet : Packet) (fragment : Fragment) (st : ClientState)
    (source hop : NodeId)
    (hsrc : packet.routing_header.hops[0]? = some source)
    (hhop : (ackPacketFor (fragMidState fromString packet fragment source st).1
        fragment.fragment_index source packet.session_id).routing_header.hops[1]? = some hop)
    (hmem : hop ∈ st.senders) :
    on_fragment_received fromString packet fragment st =
      some (sendPacketState
          (ackPacketFor (fragMidState fromString packet fragment source st).1
            fragment.fragment_index source packet.session_id)
          (fragMidState fromString packet fragment source st).1,
        (fragMidState fromString packet fragment source st).2 ++
          [ClientOut.toNeighbor hop
            (ackPacketFor (fragMidState fromString packet fragment source st).1
              fragment.fragment_index source packet.session_id)]) ∧
    ((fragMidState fromString packet fragment source st).2 ++
        [ClientOut.toNeighbor hop
          (ackPacketFor (fragMidState fromString packet fragment source st).1
            fragment.fragment_index source packet.session_id)]).filter isAckOut =
      [ClientOut.toNeighbor hop
        (ackPacketFor (fragMidState fromString packet fragment source st).1
          fragment.fragment_index source packet.session_id)] ∧
    (ackPacketFor (fragMidState fromString packet fragment source st).1
      fragment.fragment_index source packet.session_id).session_id = packet.session_id ∧
    (ackPacketFor (fragMidState fromString packet fragment source st).1
      fragment.fragment_index source packet.session_id).pack_type =
      PacketType.Ack { fragment_index := fragment.fragment_index } ∧
    ((assembler_add_fragment fragment packet.session_id st.assembler).2.bind fromString = none →
      (sendPacketState
        (ackPacketFor (fragMidState fromString packet fragment source st).1
          fragment.fragment_index source packet.session_id)
        (fragMidState fromString packet fragment source st).1).available_clients =
          st.available_clients ∧
      (sendPacketState
        (ackPacketFor (fragMidState fromString packet fragment source st).1
          fragment.fragment_index source packet.session_id)
        (fragMidState fromString packet fragment source st).1).registered_servers =
          st.registered_servers) := by
  have hmem' : hop ∈ (fragMidState fromString packet fragment source st).1.senders := by
    rw [(fragMidState_senders fromString packet fragment source st).1]
    exact hmem
  have hsp := send_packet_success
    (ackPacketFor (fragMidState fromString packet fragment source st).1
      fragment.fragment_index source packet.session_id)
    source (fragMidState fromString packet fragment source st).1 hop hhop hmem'
  refine ⟨?_, ?_, rfl, rfl, ?_⟩
  · rcases hasm : assembler_add_fragment fragment packet.session_id st.assembler
      with ⟨buf, completed⟩
    cases completed with
    | none =>
      have hmid1 : (fragMidState fromString packet fragment source st).1 =
          { st with assembler := buf } := by
        unfold fragMidState
        simp only [hasm]
      have hmid2 : (fragMidState fromString packet fragment source st).2 = [] := by
        unfold fragMidState
        simp only [hasm]
      rw [hmid1] at hsp ⊢
      rw [hmid2]
      simp only [on_fragment_received, List.get?_eq_getElem?, hasm, hsrc]
      rw [show send_ack fragment.fragment_index source packet.session_id
          { st with assembler := buf } = send_packet (ackPacketFor
            { st with assembler := buf } fragment.fragment_index source packet.session_id)
          source { st with assembler := buf } from rfl]
      rw [hsp.1]
    | some msg =>
      rcases htxt : on_text_response_arrived fromString source packet.session_id msg
        { st with assembler := buf } with ⟨stMid, outsMid⟩
      have hmid1 : (fragMidState fromString packet fragment source st).1 = stMid := by
        unfold fragMidState
        simp only [hasm, htxt]
      have hmid2 : (fragMidState fromString packet fragment source st).2 = outsMid := by
        unfold fragMidState
        simp only [hasm, htxt]
      rw [hmid1] at hsp ⊢
      rw [hmid2]
      simp only [on_fragment_received, List.get?_eq_getElem?, hasm, hsrc, htxt]
      rw [show send_ack fragment.fragment_index source packet.session_id stMid =
          send_packet (ackPacketFor stMid fragment.fragment_index source packet.session_id)
          source stMid from rfl]
      rw [hsp.1]
  · rw [List.filter_append]
    rw [filter_isAckOut_nil _ ?h1]
    · simp [isAckOut, ackPacketFor]
    case h1 =>
      intro o ho
      unfold fragMidState at ho
      rcases hasm : assembler_add_fragment fragment packet.session_id st.assembler
        with ⟨buf, completed⟩
      rw [hasm] at ho
      cases completed with
      | none => exact absurd ho (by simp)
      | some msg =>
        exact on_text_ctrl fromString source packet.session_id msg
          { st with assembler := buf } o ho
  · intro hmal
    rcases hasm : assembler_add_fragment fragment packet.session_id st.assembler
      with ⟨buf, completed⟩
    rw [hasm] at hmal
    cases completed with
    | none =>
      have hmid : fragMidState fromString packet fragment source st =
          ({ st with assembler := buf }, []) := by
        unfold fragMidState
        simp only [hasm]
      exact ⟨by rw [(sendPacketState_adapter _ _).1, hmid],
        by rw [(sendPacketState_adapter _ _).2, hmid]⟩
    | some msg =>
      have hmid : fragMidState fromString packet fragment source st =
          on_text_response_arrived fromString source packet.session_id msg
            { st with assembler := buf } := by
        unfold fragMidState
        simp only [hasm]
      have hfs : fromString msg = none := by simpa using hmal
      have htxt : on_text_response_arrived fromString source packet.session_id msg
          { st with assembler := buf } = ({ st with assembler := buf }, []) := by
        unfold on_text_response_arrived
        rw [hfs]
      exact ⟨by rw [(sendPacketState_adapter _ _).1, hmid, htxt],
        by rw [(sendPacketState_adapter _ _).2, hmid, htxt]⟩

/-- An inbound one-fragment message packet from server 21 (session 5). -/
def fragInPkt : Packet :=
  { pack_type := PacketType.MsgFragment fragW
    routing_header := { hop_index := 1, hops := [21, 2, 1] }
    session_id := 5 }

/-- A deserializer that always fails (malformed payload). -/
def noParse : List Nat → Option ChatResponseWrapper := fun _ => none

/-- Witness for C3: the inbound fragment completes, fails to deserialize,
and is still ACKed to drone 2 exactly once; the adapter state is
untouched. -/
theorem fragment_acked_exactly_once_witness :
    on_fragment_received noParse fragInPkt fragW stW =
      some (sendPacketState
          (ackPacketFor (fragMidState noParse fragInPkt fragW 21 stW).1
            fragW.fragment_index 21 fragInPkt.session_id)
          (fragMidState noParse fragInPkt fragW 21 stW).1,
        (fragMidState noParse fragInPkt fragW 21 stW).2 ++
          [ClientOut.toNeighbor 2
            (ackPacketFor (fragMidState noParse fragInPkt fragW 21 stW).1
              fragW.fragment_index 21 fragInPkt.session_id)]) ∧
    ((fragMidState noParse fragInPkt fragW 21 stW).2 ++
        [ClientOut.toNeighbor 2
          (ackPacketFor (fragMidState noParse fragInPkt fragW 21 stW).1
            fragW.fragment_index 21 fragInPkt.session_id)]).filter isAckOut =
      [ClientOut.toNeighbor 2
        (ackPacketFor (fragMidState noParse fragInPkt fragW 21 stW).1
          fragW.fragment_index 21 fragInPkt.session_id)] ∧
    (ackPacketFor (fragMidState noParse fragInPkt fragW 21 stW).1
      fragW.fragment_index 21 fragInPkt.session_id).session_id = fragInPkt.session_id ∧
    (ackPacketFor (fragMidState noParse fragInPkt fragW 21 stW).1
      fragW.fragment_index 21 fragInPkt.session_id).pack_type =
      PacketType.Ack { fragment_index := fragW.fragment_index } ∧
    ((assembler_add_fragment fragW fragInPkt.session_id stW.assembler).2.bind noParse = none →
      (sendPacketState
        (ackPacketFor (fragMidState noParse fragInPkt fragW 21 stW).1
          fragW.fragment_index 21 fragInPkt.session_id)
        (fragMidState noParse fragInPkt fragW 21 stW).1).available_clients =
          stW.available_clients ∧
      (sendPacketState
        (ackPacketFor (fragMidState noParse fragInPkt fragW 21 stW).1
          fragW.fragment_index 21 fragInPkt.session_id)
        (fragMidState noParse fragInPkt fragW 21 stW).1).registered_servers =
          stW.registered_servers) :=
  fragment_acked_exactly_once noParse fragInPkt fragW stW 21 2
    (by decide) (by decide) (by decide)

/-! ## C8: pending-route queue drain -/

/-- The pure topology effect of one path-trace loop iteration (the
node/edge part of `floodTraceNode`, which is all that runs when no new
server is discovered). -/
def traceTopoNode (prev : Option NodeId) (node : NodeId × NodeType) (t : Topology) : Topology :=
  let t1 :=
    if node.1 ∈ t.nodes then t
    else
      let ta := t.add_node node.1
      if node.2 = NodeType.Drone then ta.set_node_type node.1 "drone"
      else if node.2 = NodeType.Client then ta.set_node_type node.1 "client"
      else ta
  match prev with
  | none => t1
  | some p =>
    if p ∈ (alookup node.1 t1.edges).getD [] then t1
    else (t1.add_edge p node.1).add_edge node.1 p

/-- The pure topology effect of the whole path-trace loop. -/
def traceTopoFold : List (NodeId × NodeType) → Option NodeId → Topology → Topology
  | [], _, t => t
  | node :: rest, prev, t => traceTopoFold rest (some node.1) (traceTopoNode prev node t)

theorem get_node_type_add_node (t : Topology) (id n : NodeId) :
    (t.add_node id).get_node_type n = t.get_node_type n := by
  unfold Topology.add_node Topology.get_node_type
  by_cases h : id ∈ t.nodes <;> simp [h]

theorem add_node_node_types (t : Topology) (id : NodeId) :
    (t.add_node id).node_types = t.node_types := by
  unfold Topology.add_node
  by_cases h : id ∈ t.nodes <;> simp [h]

theorem addHalfEdge_node_types (t : Topology) (a b : NodeId) :
    (t.addHalfEdge a b).node_types = t.node_types := by
  unfold Topology.addHalfEdge
  by_cases h : b ∈ (alookup a t.edges).getD [] <;> simp [h]

theorem add_edge_node_types (t : Topology) (a b : NodeId) :
    (t.add_edge a b).node_types = t.node_types := by
  unfold Topology.add_edge
  rw [addHalfEdge_node_types, addHalfEdge_node_types]

theorem get_node_type_set_isSome (t : Topology) (id : NodeId) (s : String) (n : NodeId)
    (h : (t.get_node_type n).isSome) : ((t.set_node_type id s).get_node_type n).isSome := by
  by_cases hid : id = n
  · subst hid
    simp [Topology.set_node_type, Topology.get_node_type, alookup_ainsert_self]
  · unfold Topology.set_node_type Topology.get_node_type
    unfold Topology.get_node_type at h
    rw [show ({ t with node_types := ainsert id s t.node_types } : Topology).node_types =
      ainsert id s t.node_types from rfl, alookup_ainsert_ne _ _ hid]
    exact h

theorem traceTopoNode_types_isSome (prev : Option NodeId) (node : NodeId × NodeType)
    (t : Topology) (n : NodeId) (h : (t.get_node_type n).isSome) :
    ((traceTopoNode prev node t).get_node_type n).isSome := by
  have hstep : ∀ (t1 : Topology), (t1.get_node_type n).isSome →
      ((match prev with
        | none => t1
        | some p =>
          if p ∈ (alookup node.1 t1.edges).getD [] then t1
          else (t1.add_edge p node.1).add_edge node.1 p).get_node_type n).isSome := by
    intro t1 h1
    cases prev with
    | none => exact h1
    | some p =>
      by_cases hp : p ∈ (alookup node.1 t1.edges).getD []
      · simpa [hp] using h1
      · have : ((t1.add_edge p node.1).add_edge node.1 p).get_node_type n =
            t1.get_node_type n := by
          unfold Topology.get_node_type
          rw [add_edge_node_types, add_edge_node_types]
        simpa [hp, this] using h1
  unfold traceTopoNode
  apply hstep
  by_cases hmem : node.1 ∈ t.nodes
  · rw [if_pos hmem]
    exact h
  · rw [if_neg hmem]
    have hadd : ((t.add_node node.1).get_node_type n).isSome := by
      rw [get_node_type_add_node]
      exact h
    cases hnt : node.2 with
    | Drone => simpa using get_node_type_set_isSome _ _ _ _ hadd
    | Client => simpa using get_node_type_set_isSome _ _ _ _ hadd
    | Server => simpa using hadd

/-- `floodServerCheck` skips when the node is not a newly discovered
server. -/
theorem floodServerCheck_skip (stSess : Nat → Nat) (node : NodeId × NodeType) (k : Nat)
    (st : ClientState)
    (hcond : ¬ (node.2 = NodeType.Server ∧ st.topology.get_node_type node.1 = none)) :
    floodServerCheck stSess node k st = some (st, [], k) := by
  unfold floodServerCheck
  rw [if_neg hcond]

set_option maxHeartbeats 2000000 in
/-- When the trace node discovers no new server, `floodTraceNode` is a
pure topology update with no output and no random draw. -/
theorem floodTraceNode_no_server (stSess : Nat → Nat) (prev : Option NodeId)
    (node : NodeId × NodeType) (k : Nat) (st : ClientState)
    (h : node.2 = NodeType.Server → (st.topology.get_node_type node.1).isSome) :
    floodTraceNode stSess prev node k st =
      some ({ st with topology := traceTopoNode prev node st.topology }, [], k) := by
  have hts : ∀ tmid : Topology, tmid.node_types = st.topology.node_types →
      ¬ (node.2 = NodeType.Server ∧ tmid.get_node_type node.1 = none) := by
    rintro tmid htypes ⟨hsv, hnone⟩
    have hs := h hsv
    unfold Topology.get_node_type at hs hnone
    rw [htypes] at hnone
    rw [hnone] at hs
    exact absurd hs (by simp)
  cases hnt : node.2 with
  | Drone =>
    by_cases hmem : node.1 ∈ st.topology.nodes
    · cases prev with
      | none => simp [floodTraceNode, floodServerCheck, traceTopoNode, hnt, hmem]
      | some p =>
        by_cases hp : p ∈ (alookup node.1 st.topology.edges).getD [] <;>
          simp [floodTraceNode, floodServerCheck, traceTopoNode, hnt, hmem, hp]
    · cases prev with
      | none => simp [floodTraceNode, floodServerCheck, traceTopoNode, hnt, hmem]
      | some p =>
        by_cases hp : p ∈ (alookup node.1
            ((st.topology.add_node node.1).set_node_type node.1 "drone").edges).getD [] <;>
          simp [floodTraceNode, floodServerCheck, traceTopoNode, hnt, hmem, hp]
  | Client =>
    by_cases hmem : node.1 ∈ st.topology.nodes
    · cases prev with
      | none => simp [floodTraceNode, floodServerCheck, traceTopoNode, hnt, hmem]
      | some p =>
        by_cases hp : p ∈ (alookup node.1 st.topology.edges).getD [] <;>
          simp [floodTraceNode, floodServerCheck, traceTopoNode, hnt, hmem, hp]
    · cases prev with
      | none => simp [floodTraceNode, floodServerCheck, traceTopoNode, hnt, hmem]
      | some p =>
        by_cases hp : p ∈ (alookup node.1
            ((st.topology.add_node node.1).set_node_type node.1 "client").edges).getD [] <;>
          simp [floodTraceNode, floodServerCheck, traceTopoNode, hnt, hmem, hp]
  | Server =>
    by_cases hmem : node.1 ∈ st.topology.nodes
    · cases prev with
      | none =>
        have hneg := hts st.topology rfl
        rw [hnt] at hneg
        have hred : floodTraceNode stSess none node k st = floodServerCheck stSess node k st := by
          simp [floodTraceNode, hmem]
        rw [hred, floodServerCheck_skip stSess node k st (by rw [hnt]; exact hneg)]
        simp [traceTopoNode, hmem]
      | some p =>
        by_cases hp : p ∈ (alookup node.1 st.topology.edges).getD []
        · simp [floodTraceNode, traceTopoNode, hnt, hmem, hp]
        · have hneg := hts ((st.topology.add_edge p node.1).add_edge node.1 p)
            (by rw [add_edge_node_types, add_edge_node_types])
          rw [hnt] at hneg
          have hred : floodTraceNode stSess (some p) node k st =
              floodServerCheck stSess node k { st with
                topology := (st.topology.add_edge p node.1).add_edge node.1 p } := by
            simp [floodTraceNode, hmem, hp]
          rw [hred]
          rw [floodServerCheck_skip stSess node k { st with
                topology := (st.topology.add_edge p node.1).add_edge node.1 p }
              (by rw [hnt]; exact hneg)]
          simp [traceTopoNode, hmem, hp]
    · cases prev with
      | none =>
        have hneg := hts (st.topology.add_node node.1) (add_node_node_types _ _)
        rw [hnt] at hneg
        have hred : floodTraceNode stSess none node k st =
            floodServerCheck stSess node k { st with
              topology := st.topology.add_node node.1 } := by
          simp [floodTraceNode, hmem, hnt]
        rw [hred]
        rw [floodServerCheck_skip stSess node k { st with
              topology := st.topology.add_node node.1 } (by rw [hnt]; exact hneg)]
        simp [traceTopoNode, hmem, hnt]
      | some p =>
        by_cases hp : p ∈ (alookup node.1 (st.topology.add_node node.1).edges).getD []
        · simp [floodTraceNode, traceTopoNode, hnt, hmem, hp]
        · have hneg := hts
            (((st.topology.add_node node.1).add_edge p node.1).add_edge node.1 p)
            (by rw [add_edge_node_types, add_edge_node_types, add_node_node_types])
          rw [hnt] at hneg
          have hred : floodTraceNode stSess (some p) node k st =
              floodServerCheck stSess node k { st with
                topology := ((st.topology.add_node node.1).add_edge p node.1).add_edge
                  node.1 p } := by
            simp [floodTraceNode, hmem, hnt, hp]
          rw [hred]
          rw [floodServerCheck_skip stSess node k { st with
                topology := ((st.topology.add_node node.1).add_edge p node.1).add_edge
                  node.1 p } (by rw [hnt]; exact hneg)]
          simp [traceTopoNode, hmem, hnt, hp]

/-- When no trace node discovers a new server, the whole path-trace loop
is the pure topology fold, with no outputs and no random draws. -/
theorem floodTraceLoop_no_server (stSess : Nat → Nat) (trace : List (NodeId × NodeType))
    (prev : Option NodeId) (k : Nat) (st : ClientState) (outs : List ClientOut)
    (h : ∀ n ∈ trace, n.2 = NodeType.Server → (st.topology.get_node_type n.1).isSome) :
    floodTraceLoop stSess trace prev k st outs =
      some ({ st with topology := traceTopoFold trace prev st.topology }, outs, k) := by
  induction trace generalizing prev st outs with
  | nil => simp [floodTraceLoop, traceTopoFold]
  | cons node rest ih =>
    have hnode := floodTraceNode_no_server stSess prev node k st
      (h node (List.mem_cons_self _ _))
    have hstep : floodTraceLoop stSess (node :: rest) prev k st outs =
        floodTraceLoop stSess rest (some node.1) k
          { st with topology := traceTopoNode prev node st.topology } (outs ++ []) := by
      simp [floodTraceLoop, hnode]
    rw [hstep, ih (some node.1) { st with topology := traceTopoNode prev node st.topology }
      (outs ++ [])
      (fun n hn hs => traceTopoNode_types_isSome prev node st.topology n.1
        (h n (List.mem_cons_of_mem _ hn) hs))]
    simp [traceTopoFold]

theorem sendPacketState_pts (message : Packet) (st : ClientState) :
    (sendPacketState message st).packets_to_send = st.packets_to_send := by
  cases hpt : message.pack_type <;> simp [sendPacketState, hpt]

/-- C8: with a single packet parked for destination `d` and a flood
response whose trace discovers no new server, processing the response
emits the parked packet exactly once, to the first forwarder of the route
the updated topology yields for `d`, with that route attached as its
routing header — no duplicate send, and the queue entry is gone.
The last two conjuncts state the queue discipline: an enqueue replaces
any prior packet for the same destination and leaves others alone, and
`send_packet` with an empty route parks the packet under its
destination. -/
theorem pending_route_drain (stSess : Nat → Nat) (fr : FloodResponse)
    (st : ClientState) (d : NodeId) (p : Packet) (hop : NodeId)
    (hq : st.packets_to_send = [(d, p)])
    (hserver : ∀ n ∈ fr.path_trace, n.2 = NodeType.Server →
      (st.topology.get_node_type n.1).isSome)
    (hhop : ((traceTopoFold fr.path_trace none st.topology).get_routing_header
        st.client_id d).hops[1]? = some hop)
    (hmem : hop ∈ st.senders) :
    (on_flood_response_received stSess fr st =
      some (sendPacketState
          { p with routing_header := ((traceTopoFold fr.path_trace none st.topology).get_routing_header st.client_id d) }
          { st with
            topology := traceTopoFold fr.path_trace none st.topology
            packets_to_send := [] },
        [ClientOut.toController (CtrlMsg.FloodResponseMsg fr.flood_id),
          ClientOut.toNeighbor hop
            { p with routing_header := ((traceTopoFold fr.path_trace none st.topology).get_routing_header st.client_id d) }]) ∧
      (sendPacketState
          { p with routing_header := ((traceTopoFold fr.path_trace none st.topology).get_routing_header st.client_id d) }
          { st with
            topology := traceTopoFold fr.path_trace none st.topology
            packets_to_send := [] }).packets_to_send = []) ∧
    (∀ (q : List (NodeId × Packet)) (d' d'' : NodeId) (p' : Packet),
      alookup d' (ainsert d' p' q) = some p' ∧
      (d' ≠ d'' → alookup d'' (ainsert d' p' q) = alookup d'' q)) ∧
    (∀ (p' : Packet) (d' : NodeId) (st0 : ClientState), p'.routing_header.hops = [] →
      send_packet p' d' st0 =
        some ({ st0 with packets_to_send := (ainsert d' p' st0.packets_to_send) }, [])) := by
  refine ⟨?_, ?_, ?_⟩
  · have hloop := floodTraceLoop_no_server stSess fr.path_trace none 0 st [] hserver
    have hsp := send_packet_success
      { p with routing_header := ((traceTopoFold fr.path_trace none st.topology).get_routing_header st.client_id d) }
      d
      { st with
        topology := traceTopoFold fr.path_trace none st.topology
        packets_to_send := [] }
      hop hhop hmem
    constructor
    · simp only [on_flood_response_received, hloop, hq]
      simp [drainLoop, hsp.1]
    · rw [sendPacketState_pts]
  · intro q d' d'' p'
    exact ⟨alookup_ainsert_self d' p' q, fun hne => alookup_ainsert_ne p' q hne⟩
  · intro p' d' st0 hempty
    simp [send_packet, hempty]

/-- A packet parked with an empty routing header (no route was known). -/
def pPendW : Packet :=
  { pack_type := PacketType.MsgFragment fragW
    routing_header := { hop_index := 1, hops := [] }
    session_id := 0 }

/-- A client that knows only the far edge `2 — 21` and has `pPendW` parked
for destination 21; the flood response will teach it the edge `1 — 2`. -/
def stC8 : ClientState :=
  { stW with
    topology :=
      { nodes := [2, 21]
        edges := [(2, [21]), (21, [2])]
        node_types := [(2, "drone"), (21, "server")]
        node_history := [] }
    packets_to_send := [(21, pPendW)] }

/-- The flood response carrying the trace `1 (client) — 2 (drone)`. -/
def frC8 : FloodResponse :=
  { flood_id := 42, path_trace := [(1, NodeType.Client), (2, NodeType.Drone)] }

/-- Witness for C8: processing `frC8` on `stC8` emits the parked packet
exactly once to drone 2 with the fresh route `[1, 2, 21]` attached. -/
theorem pending_route_drain_witness :
    (on_flood_response_received (fun _ => 0) frC8 stC8 =
      some (sendPacketState
          { pPendW with routing_header := ((traceTopoFold frC8.path_trace none stC8.topology).get_routing_header stC8.client_id 21) }
          { stC8 with
            topology := traceTopoFold frC8.path_trace none stC8.topology
            packets_to_send := [] },
        [ClientOut.toController (CtrlMsg.FloodResponseMsg frC8.flood_id),
          ClientOut.toNeighbor 2
            { pPendW with routing_header := ((traceTopoFold frC8.path_trace none stC8.topology).get_routing_header stC8.client_id 21) }]) ∧
      (sendPacketState
          { pPendW with routing_header := ((traceTopoFold frC8.path_trace none stC8.topology).get_routing_header stC8.client_id 21) }
          { stC8 with
            topology := traceTopoFold frC8.path_trace none stC8.topology
            packets_to_send := [] }).packets_to_send = []) ∧
    (∀ (q : List (NodeId × Packet)) (d' d'' : NodeId) (p' : Packet),
      alookup d' (ainsert d' p' q) = some p' ∧
      (d' ≠ d'' → alookup d'' (ainsert d' p' q) = alookup d'' q)) ∧
    (∀ (p' : Packet) (d' : NodeId) (st0 : ClientState), p'.routing_header.hops = [] →
      send_packet p' d' st0 =
        some ({ st0 with packets_to_send := (ainsert d' p' st0.packets_to_send) }, [])) :=
  pending_route_drain (fun _ => 0) frC8 stC8 21 pPendW 2
    (by decide) (by decide) (by decide) (by decide)

/-! ## C9: the BFS route of `src/routing/mod.rs` -/

/-- The neighbour list `Topology::neighbors` returns (empty when the node
has no adjacency entry — the source `unwrap`s in that case). -/
def rneighbors (t : RTopology) (u : NodeId) : List NodeId :=
  (alookup u t.edges).getD []

/-- Graph reachability along the adjacency lists. -/
inductive Reach (t : RTopology) (src : NodeId) : NodeId → Prop
  | refl : Reach t src src
  | step {u v : NodeId} : Reach t src u → v ∈ rneighbors t u → Reach t src v

/-- Consecutive hops follow existing edges. -/
def isChain (t : RTopology) : List NodeId → Prop
  | [] => True
  | [_] => True
  | a :: b :: rest => b ∈ rneighbors t a ∧ isChain t (b :: rest)

/-- Well-formedness: every listed neighbour has its own adjacency entry
(no `unwrap` panic while scanning). -/
def RWf (t : RTopology) : Prop :=
  ∀ p ∈ t.edges, ∀ v ∈ p.2, (alookup v t.edges).isSome

instance : DecidablePred RWf := by
  intro t
  unfold RWf
  infer_instance

theorem alookup_mem {α β : Type} [DecidableEq α] {k : α} {v : β} :
    ∀ {m : List (α × β)}, alookup k m = some v → (k, v) ∈ m := by
  intro m
  induction m with
  | nil => intro h; exact absurd h (by simp [alookup])
  | cons hd tl ih =>
    intro h
    obtain ⟨k', v'⟩ := hd
    by_cases hk : k' = k
    · subst hk
      rw [alookup, if_pos rfl] at h
      rw [← Option.some.inj h]
      exact List.mem_cons_self _ _
    · rw [alookup, if_neg hk] at h
      exact List.mem_cons_of_mem _ (ih h)

theorem ainsert_length_fresh {α β : Type} [DecidableEq α] {k : α} (v : β) :
    ∀ {m : List (α × β)}, alookup k m = none → (ainsert k v m).length = m.length + 1 := by
  intro m
  induction m with
  | nil => intro _; rfl
  | cons hd tl ih =>
    intro h
    obtain ⟨k', v'⟩ := hd
    by_cases hk : k' = k
    · rw [alookup, if_pos hk] at h
      exact absurd h (by simp)
    · rw [alookup, if_neg hk] at h
      simp only [ainsert, if_neg hk, List.length_cons]
      rw [ih h]

theorem isChain_reach_from (t : RTopology) (src : NodeId) :
    ∀ (r : List NodeId) (a : NodeId), Reach t src a → isChain t (a :: r) →
      ∀ x, (a :: r).getLast? = some x → Reach t src x := by
  intro r
  induction r with
  | nil =>
    intro a ha _ x hl
    simp at hl
    rw [← hl]
    exact ha
  | cons b rest ih =>
    intro a ha hc x hl
    obtain ⟨hab, hcr⟩ := hc
    have hb : Reach t src b := Reach.step ha hab
    have hl' : (b :: rest).getLast? = some x := by
      rwa [List.getLast?_cons_cons] at hl
    exact ih b hb hcr x hl'

theorem isChain_reach (t : RTopology) (src : NodeId) (r : List NodeId)
    (hc : isChain t r) (hh : r.head? = some src) :
    ∀ x, r.getLast? = some x → Reach t src x := by
  cases r with
  | nil => exact absurd hh (by simp)
  | cons a rest =>
    have ha : a = src := by
      simp at hh
      exact hh
    subst ha
    exact isChain_reach_from t a rest a Reach.refl hc

theorem rUniv_nodup (t : RTopology) (src : NodeId) : (rUniv t src).Nodup :=
  List.nodup_dedup _

theorem mem_rUniv_src (t : RTopology) (src : NodeId) : src ∈ rUniv t src := by
  unfold rUniv
  rw [List.mem_dedup]
  exact List.mem_cons_self _ _

theorem mem_rUniv_of_nbr (t : RTopology) (src : NodeId) {cur : NodeId}
    {nbrs : List NodeId} (hmem : (cur, nbrs) ∈ t.edges) {x : NodeId}
    (hx : x ∈ nbrs) : x ∈ rUniv t src := by
  unfold rUniv
  rw [List.mem_dedup]
  refine List.mem_cons_of_mem _ (List.mem_append_right _ ?_)
  rw [List.mem_flatMap]
  exact ⟨(cur, nbrs), hmem, hx⟩

/-- What one neighbour scan does: it appends the same block of fresh nodes
to the queue and to the visited list, and binds each of them to `cur` in
the parent map, touching nothing else. -/
theorem enqueueNew_spec (cur : NodeId) :
    ∀ (ns q v : List NodeId) (p : List (NodeId × NodeId)),
      (∀ x, (alookup x p).isSome → x ∈ v) →
      ∃ added p',
        enqueueNew cur ns q v p = (q ++ added, v ++ added, p') ∧
        added.Nodup ∧
        (∀ x ∈ added, x ∈ ns ∧ x ∉ v) ∧
        (∀ x ∈ ns, x ∈ v ∨ x ∈ added) ∧
        p'.length = p.length + added.length ∧
        (∀ x ∈ added, alookup x p' = some cur) ∧
        (∀ n, n ∉ added → alookup n p' = alookup n p) := by
  intro ns
  induction ns with
  | nil =>
    intro q v p _
    refine ⟨[], p, ?_, ?_, ?_, ?_, ?_, ?_, ?_⟩ <;> simp [enqueueNew]
  | cons n ns' ih =>
    intro q v p hfresh
    by_cases hn : n ∈ v
    · obtain ⟨added, p', heq, hnd, hmem, hcover, hlen, hlkA, hlkO⟩ := ih q v p hfresh
      refine ⟨added, p', ?_, hnd, ?_, ?_, hlen, hlkA, hlkO⟩
      · simp [enqueueNew, hn, heq]
      · intro x hx
        exact ⟨List.mem_cons_of_mem _ (hmem x hx).1, (hmem x hx).2⟩
      · intro x hx
        rcases List.mem_cons.mp hx with hx | hx
        · subst hx
          exact Or.inl hn
        · exact hcover x hx
    · have hnp : alookup n p = none := by
        cases hlk : alookup n p with
        | none => rfl
        | some c => exact absurd (hfresh n (by rw [hlk]; rfl)) hn
      have hfresh' : ∀ x, (alookup x (ainsert n cur p)).isSome → x ∈ v ++ [n] := by
        intro x hx
        by_cases hxn : x = n
        · subst hxn
          simp
        · rw [alookup_ainsert_ne _ _ (fun he => hxn he.symm)] at hx
          exact List.mem_append_left _ (hfresh x hx)
      obtain ⟨added, p', heq, hnd, hmem, hcover, hlen, hlkA, hlkO⟩ :=
        ih (q ++ [n]) (v ++ [n]) (ainsert n cur p) hfresh'
      have hnadded : n ∉ added := by
        intro hcon
        exact (hmem n hcon).2 (List.mem_append_right _ (List.mem_cons_self _ _))
      refine ⟨n :: added, p', ?_, ?_, ?_, ?_, ?_, ?_, ?_⟩
      · simp only [enqueueNew, if_neg hn]
        rw [heq]
        simp
      · exact List.Nodup.cons hnadded hnd
      · intro x hx
        rcases List.mem_cons.mp hx with hx | hx
        · subst hx
          exact ⟨List.mem_cons_self _ _, hn⟩
        · refine ⟨List.mem_cons_of_mem _ (hmem x hx).1, fun hcon => (hmem x hx).2
            (List.mem_append_left _ hcon)⟩
      · intro x hx
        rcases List.mem_cons.mp hx with hx | hx
        · subst hx
          exact Or.inr (List.mem_cons_self _ _)
        · rcases hcover x hx with hx2 | hx2
          · rcases List.mem_append.mp hx2 with hx3 | hx3
            · exact Or.inl hx3
            · rw [List.mem_singleton.mp hx3]
              exact Or.inr (List.mem_cons_self _ _)
          · exact Or.inr (List.mem_cons_of_mem _ hx2)
      · rw [hlen, ainsert_length_fresh cur hnp]
        simp
        omega
      · intro x hx
        rcases List.mem_cons.mp hx with hx | hx
        · subst hx
          rw [hlkO x hnadded, alookup_ainsert_self]
        · exact hlkA x hx
      · intro m hm
        have hmn : m ≠ n := fun he => hm (he ▸ List.mem_cons_self _ _)
        have hma : m ∉ added := fun hc => hm (List.mem_cons_of_mem _ hc)
        rw [hlkO m hma, alookup_ainsert_ne _ _ (fun he => hmn he.symm)]

/-- Position of a node in the visited list; drives the termination of the
parent-pointer walk (a parent always sits strictly earlier than its child). -/
def idxIn : List NodeId → NodeId → Nat
  | [], _ => 0
  | a :: t, x => if a = x then 0 else idxIn t x + 1

theorem idxIn_lt_length {x : NodeId} : ∀ {v : List NodeId}, x ∈ v → idxIn v x < v.length := by
  intro v
  induction v with
  | nil => intro h; cases h
  | cons a t ih =>
    intro h
    by_cases hax : a = x
    · simp [idxIn, hax]
    · rcases List.mem_cons.mp h with h | h
      · exact absurd h.symm hax
      · simp only [idxIn, if_neg hax, List.length_cons]
        exact Nat.succ_lt_succ (ih h)

theorem idxIn_append_left {x : NodeId} :
    ∀ {v : List NodeId} (w : List NodeId), x ∈ v → idxIn (v ++ w) x = idxIn v x := by
  intro v
  induction v with
  | nil => intro w h; cases h
  | cons a t ih =>
    intro w h
    by_cases hax : a = x
    · simp [idxIn, hax]
    · rcases List.mem_cons.mp h with h | h
      · exact absurd h.symm hax
      · simp only [List.cons_append, idxIn, if_neg hax]
        exact congrArg (fun n => n + 1) (ih w h)

theorem idxIn_ge_length_of_not_mem {x : NodeId} :
    ∀ {v : List NodeId} (w : List NodeId), x ∉ v → v.length ≤ idxIn (v ++ w) x := by
  intro v
  induction v with
  | nil => intro w _; exact Nat.zero_le _
  | cons a t ih =>
    intro w h
    have hax : a ≠ x := fun he => h (he ▸ List.mem_cons_self _ _)
    have hxt : x ∉ t := fun hc => h (List.mem_cons_of_mem _ hc)
    simp only [List.cons_append, idxIn, if_neg hax, List.length_cons]
    exact Nat.succ_le_succ (ih w hxt)

theorem filter_length_drop_one {a : NodeId} {v : List NodeId} :
    ∀ {S : List NodeId}, S.Nodup → a ∈ S → a ∉ v →
      (S.filter (fun x => decide (x ∉ v))).length =
        (S.filter (fun x => decide (x ∉ v ++ [a]))).length + 1 := by
  intro S
  induction S with
  | nil => intro _ ha; cases ha
  | cons s S ih =>
    intro hnd ha hav
    have hsS : s ∉ S := (List.nodup_cons.mp hnd).1
    have hndS : S.Nodup := (List.nodup_cons.mp hnd).2
    by_cases hsa : s = a
    · subst hsa
      have hkeep : (decide (s ∉ v)) = true := by simp [hav]
      have hdrop : (decide (s ∉ v ++ [s])) = false := by simp
      rw [List.filter_cons, List.filter_cons, hkeep, hdrop]
      simp only [eq_self_iff_true, if_true, Bool.false_eq_true, if_false, List.length_cons]
      have hcong : S.filter (fun x => decide (x ∉ v)) =
          S.filter (fun x => decide (x ∉ v ++ [s])) := by
        apply List.filter_congr
        intro x hx
        have hxs : x ≠ s := fun he => hsS (he ▸ hx)
        simp [hxs]
      rw [hcong]
    · rcases List.mem_cons.mp ha with h | h
      · exact absurd h.symm hsa
      · have hpred : (decide (s ∉ v ++ [a])) = (decide (s ∉ v)) := by
          simp [hsa]
        rw [List.filter_cons, List.filter_cons, hpred]
        cases hd : decide (s ∉ v) with
        | true =>
          simp only [eq_self_iff_true, if_true, List.length_cons]
          rw [ih hndS h hav]
        | false =>
          simp only [Bool.false_eq_true, if_false]
          exact ih hndS h hav

theorem filter_length_append {S : List NodeId} (hS : S.Nodup) :
    ∀ (added v : List NodeId), added.Nodup → (∀ x ∈ added, x ∈ S ∧ x ∉ v) →
      (S.filter (fun x => decide (x ∉ v))).length =
        (S.filter (fun x => decide (x ∉ v ++ added))).length + added.length := by
  intro added
  induction added with
  | nil =>
    intro v _ _
    simp
  | cons a rest ih =>
    intro v hnd hmem
    have hnar : a ∉ rest := (List.nodup_cons.mp hnd).1
    have hndr : rest.Nodup := (List.nodup_cons.mp hnd).2
    have ha := hmem a (List.mem_cons_self _ _)
    have h1 := filter_length_drop_one hS ha.1 ha.2
    have h2 := ih (v ++ [a]) hndr (by
      intro x hx
      refine ⟨(hmem x (List.mem_cons_of_mem _ hx)).1, ?_⟩
      intro hcon
      rcases List.mem_append.mp hcon with hc | hc
      · exact (hmem x (List.mem_cons_of_mem _ hx)).2 hc
      · exact hnar (List.mem_singleton.mp hc ▸ hx))
    have hassoc : v ++ [a] ++ rest = v ++ a :: rest := by
      simp
    rw [h1, h2, hassoc]
    simp only [List.length_cons]
    omega

theorem reach_mem_closed (t : RTopology) (src : NodeId) (v : List NodeId)
    (hsrc : src ∈ v) (hcl : ∀ x ∈ v, ∀ y ∈ rneighbors t x, y ∈ v) :
    ∀ x, Reach t src x → x ∈ v := by
  intro x hx
  induction hx with
  | refl => exact hsrc
  | step hu hnb ih => exact hcl _ ih _ hnb

theorem getLast?_append_singleton (l : List NodeId) (a : NodeId) :
    (l ++ [a]).getLast? = some a := by
  induction l with
  | nil => rfl
  | cons b t ih =>
    rw [List.cons_append]
    cases ht : t ++ [a] with
    | nil => exact absurd ht (by simp)
    | cons c u =>
      rw [List.getLast?_cons_cons, ← ht, ih]

/-- The loop invariant of `compute_route`: everything the BFS state
`(queue, visited, parent)` guarantees at the top of each iteration. -/
structure BfsInv (t : RTopology) (src dst : NodeId)
    (q v : List NodeId) (p : List (NodeId × NodeId)) : Prop where
  nodup : v.Nodup
  qsub : ∀ x ∈ q, x ∈ v
  srcMem : src ∈ v
  reach : ∀ x ∈ v, Reach t src x
  keys : ∀ x ∈ v, (alookup x t.edges).isSome
  vUniv : ∀ x ∈ v, x ∈ rUniv t src
  parDom : ∀ x, (alookup x p).isSome → x ∈ v
  parTotal : ∀ x ∈ v, x = src ∨ (alookup x p).isSome
  parSpec : ∀ n c, alookup n p = some c →
    c ∈ v ∧ n ∈ rneighbors t c ∧ idxIn v c < idxIn v n
  countEq : v.length = p.length + 1
  closure : ∀ x ∈ v, x ∉ q → ∀ y ∈ rneighbors t x, y ∈ v
  dstPend : dst ∈ v → dst ∈ q

/-- The parent-pointer walk succeeds on every visited node and yields a
chain from the source: each parent sits strictly earlier in the visited
list, so the walk terminates within the given fuel. -/
theorem buildRouteAux_spec (t : RTopology) (src : NodeId) (v : List NodeId)
    (p : List (NodeId × NodeId))
    (hTotal : ∀ x ∈ v, x = src ∨ (alookup x p).isSome)
    (hSpec : ∀ n c, alookup n p = some c →
      c ∈ v ∧ n ∈ rneighbors t c ∧ idxIn v c < idxIn v n) :
    ∀ fuel node, node ∈ v → idxIn v node < fuel → ∀ acc,
      isChain t (node :: acc) →
      ∃ pre, buildRouteAux p src fuel node acc = some (pre ++ node :: acc) ∧
        (pre ++ node :: acc).head? = some src ∧ isChain t (pre ++ node :: acc) := by
  intro fuel
  induction fuel with
  | zero =>
    intro node _ hlt
    exact absurd hlt (by omega)
  | succ fuel ih =>
    intro node hnode hlt acc hchain
    by_cases hns : node = src
    · subst hns
      exact ⟨[], by simp [buildRouteAux], by simp, hchain⟩
    · rcases hTotal node hnode with h | h
      · exact absurd h hns
      · obtain ⟨c, hc⟩ := Option.isSome_iff_exists.mp h
        obtain ⟨hcv, hnb, hidx⟩ := hSpec node c hc
        have hlt' : idxIn v c < fuel := by omega
        obtain ⟨pre, heq, hhd, hch⟩ := ih c hcv hlt' (node :: acc) ⟨hnb, hchain⟩
        refine ⟨pre ++ [c], ?_, ?_, ?_⟩
        · show buildRouteAux p src (fuel + 1) node acc = _
          simp only [buildRouteAux, if_neg hns, hc]
          rw [heq]
          simp
        · rw [List.append_assoc, List.singleton_append]
          exact hhd
        · rw [List.append_assoc, List.singleton_append]
          exact hch

/-- The BFS main loop, run with enough fuel from an invariant state,
terminates without panicking and returns the empty route exactly when the
destination is unreachable, and otherwise an existing-edge chain from the
source to the destination. -/
theorem bfsLoop_spec (t : RTopology) (src dst : NodeId) (hwf : RWf t) :
    ∀ fuel q v p, BfsInv t src dst q v p →
      ((rUniv t src).filter (fun x => decide (x ∉ v))).length + q.length < fuel →
      ∃ r, bfsLoop t src dst fuel q v p = some r ∧
        ((r = [] ∧ ¬ Reach t src dst) ∨
          (r.head? = some src ∧ r.getLast? = some dst ∧ isChain t r ∧
            Reach t src dst)) := by
  intro fuel
  induction fuel with
  | zero =>
    intro q v p _ hm
    exact absurd hm (by omega)
  | succ fuel ih =>
    intro q v p inv hm
    cases hq : q with
    | nil =>
      subst hq
      have hclosed : ∀ x ∈ v, ∀ y ∈ rneighbors t x, y ∈ v := by
        intro x hx y hy
        exact inv.closure x hx (List.not_mem_nil x) y hy
      have hnr : ¬ Reach t src dst := by
        intro hreach
        have hdv := reach_mem_closed t src v inv.srcMem hclosed dst hreach
        exact List.not_mem_nil dst (inv.dstPend hdv)
      exact ⟨[], rfl, Or.inl ⟨rfl, hnr⟩⟩
    | cons current rest =>
      subst hq
      have hcv : current ∈ v := inv.qsub current (List.mem_cons_self _ _)
      by_cases hcd : current = dst
      · subst hcd
        have hidx : idxIn v current < p.length + 1 := by
          have h1 := idxIn_lt_length hcv
          have h2 := inv.countEq
          omega
        obtain ⟨pre, heq, hhd, hch⟩ := buildRouteAux_spec t src v p inv.parTotal
          inv.parSpec (p.length + 1) current hcv hidx [] (by exact trivial)
        have hstep : bfsLoop t src current (fuel + 1) (current :: rest) v p =
            buildRouteAux p src (p.length + 1) current [] := by
          simp [bfsLoop]
        refine ⟨pre ++ [current], by rw [hstep, heq], Or.inr
          ⟨hhd, getLast?_append_singleton pre current, hch, ?_⟩⟩
        exact isChain_reach t src (pre ++ [current]) hch hhd current
          (getLast?_append_singleton pre current)
      · obtain ⟨nbrs, hnbrs⟩ := Option.isSome_iff_exists.mp (inv.keys current hcv)
        obtain ⟨added, p', heq, hnd, hmem, hcover, hlen, hlkA, hlkO⟩ :=
          enqueueNew_spec current nbrs rest v p inv.parDom
        have hrn : rneighbors t current = nbrs := by
          simp [rneighbors, hnbrs]
        have hcm : (current, nbrs) ∈ t.edges := alookup_mem hnbrs
        have hdisj : ∀ x ∈ v, x ∉ added := fun x hx hc => (hmem x hc).2 hx
        have haddU : ∀ x ∈ added, x ∈ rUniv t src :=
          fun x hx => mem_rUniv_of_nbr t src hcm (hmem x hx).1
        have inv' : BfsInv t src dst (rest ++ added) (v ++ added) p' := by
          refine ⟨?_, ?_, ?_, ?_, ?_, ?_, ?_, ?_, ?_, ?_, ?_, ?_⟩
          · exact List.Nodup.append inv.nodup hnd (fun a ha hb => hdisj a ha hb)
          · intro x hx
            rcases List.mem_append.mp hx with hx | hx
            · exact List.mem_append_left _ (inv.qsub x (List.mem_cons_of_mem _ hx))
            · exact List.mem_append_right _ hx
          · exact List.mem_append_left _ inv.srcMem
          · intro x hx
            rcases List.mem_append.mp hx with hx | hx
            · exact inv.reach x hx
            · exact Reach.step (inv.reach current hcv) (by rw [hrn]; exact (hmem x hx).1)
          · intro x hx
            rcases List.mem_append.mp hx with hx | hx
            · exact inv.keys x hx
            · exact hwf (current, nbrs) hcm x (hmem x hx).1
          · intro x hx
            rcases List.mem_append.mp hx with hx | hx
            · exact inv.vUniv x hx
            · exact haddU x hx
          · intro x hx
            by_cases hxa : x ∈ added
            · exact List.mem_append_right _ hxa
            · rw [hlkO x hxa] at hx
              exact List.mem_append_left _ (inv.parDom x hx)
          · intro x hx
            rcases List.mem_append.mp hx with hx | hx
            · rcases inv.parTotal x hx with h | h
              · exact Or.inl h
              · refine Or.inr ?_
                rw [hlkO x (hdisj x hx)]
                exact h
            · refine Or.inr ?_
              rw [hlkA x hx]
              rfl
          · intro n c hnc
            by_cases hna : n ∈ added
            · have hcc : c = current := by
                have := (hlkA n hna).symm.trans hnc
                exact (Option.some.inj this).symm
              subst hcc
              refine ⟨List.mem_append_left _ hcv, by rw [hrn]; exact (hmem n hna).1, ?_⟩
              have h1 : idxIn (v ++ added) c = idxIn v c := idxIn_append_left added hcv
              have h2 : v.length ≤ idxIn (v ++ added) n :=
                idxIn_ge_length_of_not_mem added (hmem n hna).2
              have h3 : idxIn v c < v.length := idxIn_lt_length hcv
              omega
            · rw [hlkO n hna] at hnc
              obtain ⟨h1, h2, h3⟩ := inv.parSpec n c hnc
              have hnv : n ∈ v := inv.parDom n (by rw [hnc]; rfl)
              refine ⟨List.mem_append_left _ h1, h2, ?_⟩
              rw [idxIn_append_left added h1, idxIn_append_left added hnv]
              exact h3
          · rw [List.length_append, hlen, inv.countEq]
            omega
          · intro x hx hxq y hy
            rcases List.mem_append.mp hx with hx | hx
            · by_cases hxc : x = current
              · subst hxc
                rw [hrn] at hy
                rcases hcover y hy with h | h
                · exact List.mem_append_left _ h
                · exact List.mem_append_right _ h
              · have hxr : x ∉ (current :: rest) := by
                  intro hc
                  rcases List.mem_cons.mp hc with hc | hc
                  · exact hxc hc
                  · exact hxq (List.mem_append_left _ hc)
                exact List.mem_append_left _ (inv.closure x hx hxr y hy)
            · exact absurd (List.mem_append_right rest hx) hxq
          · intro hd
            rcases List.mem_append.mp hd with hd | hd
            · rcases List.mem_cons.mp (inv.dstPend hd) with h | h
              · exact absurd h.symm hcd
              · exact List.mem_append_left _ h
            · exact List.mem_append_right _ hd
        have hfl := filter_length_append (rUniv_nodup t src) added v hnd
          (fun x hx => ⟨haddU x hx, (hmem x hx).2⟩)
        have hm' : ((rUniv t src).filter (fun x => decide (x ∉ v ++ added))).length +
            (rest ++ added).length < fuel := by
          simp only [List.length_cons] at hm
          rw [List.length_append]
          omega
        have hstep : bfsLoop t src dst (fuel + 1) (current :: rest) v p =
            bfsLoop t src dst fuel (rest ++ added) (v ++ added) p' := by
          simp only [bfsLoop, hnbrs, if_neg hcd]
          rw [heq]
        obtain ⟨r, hr, hprop⟩ := ih (rest ++ added) (v ++ added) p' inv' hm'
        exact ⟨r, by rw [hstep]; exact hr, hprop⟩

/-- C9 (amended): on a well-formed adjacency map whose source node has an
entry, `compute_route` terminates without panicking; it returns the empty
route exactly when the destination is unreachable along the adjacency
lists, and otherwise a hop sequence that starts at the source, ends at the
destination and follows existing edges. Node kinds are not consulted: the
routing `Topology` records no kinds, so clients and servers can appear as
intermediate hops (see the counterexample). -/
theorem compute_route_amended (t : RTopology) (src dst : NodeId)
    (hwf : RWf t) (hsrc : (alookup src t.edges).isSome) :
    ∃ r, compute_route t src dst = some r ∧
      ((r = [] ∧ ¬ Reach t src dst) ∨
        (r.head? = some src ∧ r.getLast? = some dst ∧ isChain t r ∧
          Reach t src dst)) := by
  have inv : BfsInv t src dst [src] [src] [] :=
    { nodup := List.nodup_singleton src
      qsub := fun x hx => hx
      srcMem := List.mem_singleton.mpr rfl
      reach := fun x hx => by rw [List.mem_singleton.mp hx]; exact Reach.refl
      keys := fun x hx => by rw [List.mem_singleton.mp hx]; exact hsrc
      vUniv := fun x hx => by rw [List.mem_singleton.mp hx]; exact mem_rUniv_src t src
      parDom := fun x hx => absurd hx (by simp [alookup])
      parTotal := fun x hx => Or.inl (List.mem_singleton.mp hx)
      parSpec := fun n c h => absurd h (by simp [alookup])
      countEq := rfl
      closure := fun x hx hxq => absurd hx hxq
      dstPend := fun h => h }
  have hfle : ((rUniv t src).filter
      (fun x => decide (x ∉ ([src] : List NodeId)))).length ≤ (rUniv t src).length :=
    List.length_filter_le _ _
  have hm : ((rUniv t src).filter
        (fun x => decide (x ∉ ([src] : List NodeId)))).length +
      ([src] : List NodeId).length < (rUniv t src).length + 2 := by
    simp only [List.length_singleton]
    omega
  obtain ⟨r, hr, hp⟩ := bfsLoop_spec t src dst hwf ((rUniv t src).length + 2)
    [src] [src] [] inv hm
  refine ⟨r, ?_, hp⟩
  unfold compute_route
  exact hr

/-- The line network 1 – 2 – 3, as the `Topology` constructors of
`src/routing/mod.rs` build it. -/
def topoC9cx : RTopology :=
  { nodes := [1, 2, 3], edges := [(1, [2]), (2, [1, 3]), (3, [2])] }

/-- Node kinds as the rest of the client would track them for that network:
the middle node 2 is a client. `routing::Topology` itself stores no kinds,
so `compute_route` cannot consult this map. -/
def kindsC9cx : List (NodeId × NodeType) :=
  [(1, NodeType.Client), (2, NodeType.Client), (3, NodeType.Server)]

/-- Counterexample to C9 as stated: `compute_route` takes no node-kind
information — `routing::Topology` stores none — so on the line network
1 – 2 – 3 it returns the route `[1, 2, 3]` in which node 2, a client
under the kind assignment the client tracks elsewhere, is an intermediate
hop. -/
theorem compute_route_kinds_cx :
    ((((RTopology.new.add_node 1).add_node 2).add_node 3).add_edge 1 2).bind
        (fun t0 => t0.add_edge 2 3) = some topoC9cx ∧
    compute_route topoC9cx 1 3 = some [1, 2, 3] ∧
    alookup 2 kindsC9cx = some NodeType.Client ∧
    2 ∈ [1, 2, 3] ∧ [1, 2, 3].head? ≠ some 2 ∧ [1, 2, 3].getLast? ≠ some 2 :=
  ⟨by decide, by decide, by decide, by decide, by decide, by decide⟩

/-- Witness for C9 (amended): the theorem instantiated on the concrete
line network, where node 3 is reachable from node 1. -/
theorem compute_route_amended_witness :
    RWf topoC9cx ∧ (alookup 1 topoC9cx.edges).isSome ∧
    (∃ r, compute_route topoC9cx 1 3 = some r ∧
      ((r = [] ∧ ¬ Reach topoC9cx 1 3) ∨
        (r.head? = some 1 ∧ r.getLast? = some 3 ∧ isChain topoC9cx r ∧
          Reach topoC9cx 1 3))) :=
  ⟨by decide, by decide, compute_route_amended topoC9cx 1 3 (by decide) (by decide)⟩

end RustafarianClient
